import Mathlib

/-!
# Verification of the `peter_redis` key-value server core

A shallow embedding, in Lean 4, of the parts of the `peter_redis` Rust
code base (an in-memory Redis-like server) that the specification's
claims talk about:

* the wire value model and codec (`src/resp.rs`, `src/network.rs`);
* the typed key-value store (`src/database.rs`);
* the glob pattern matcher (`src/common.rs`, `PatternMatcher`);
* the command model (`src/commands.rs`);
* the command parser (`src/command_parser.rs`);
* the command engine (`src/engine.rs`), restricted to its sequential,
  deterministic behaviour;
* the snapshot (RDB) reader (`src/rdb.rs`).

Modelling conventions:

* Rust `String`s are Lean `String`s; byte streams are `List Char`
  (the code paths in scope treat payloads as UTF-8 text, and both the
  serializer and the reader of the model measure lengths with the same
  function, exactly as the Rust code measures both with byte length).
* `u128`/`usize` become `Nat`, `i64`/`i32` become `Int` with explicit
  range checks where the Rust parse functions perform them.  No modelled
  operation performs wrapping arithmetic.
* Fallible Rust functions returning `Result<T, String>` become
  `Except String T`; Rust panics (`unwrap`, `unreachable!`, index out of
  bounds, `unimplemented!`, failed `assert!`) are modelled as explicit
  `panic`-style constructors of result types, since a spec claim may
  turn exactly on whether a panic is reachable.
* Loops that wait on notifications (blocking pops, blocking `XREAD`,
  `WAIT`) are modelled by their sequential outcome: the single-threaded
  execution in which no concurrent mutation happens between retries and
  the deadline eventually passes.  Only the returned value and the state
  mutations are modelled, never the timing.
* Recursions that Rust bounds only by the input (nested arrays in the
  wire reader, section loops in the snapshot reader) take an explicit
  `fuel : Nat` that strictly decreases on every call, keeping every
  definition structurally recursive and kernel-computable; theorems
  always supply enough fuel for the reached depth.
-/

namespace PeterRedis

/-! ## Character and number helpers

`isWsChar` models Rust's `char::is_whitespace` on the ASCII fragment the
protocol uses. -/

def isWsChar (c : Char) : Bool :=
  c = ' ' || c = '\t' || c = '\n' || c = '\r' || c = '\x0b' || c = '\x0c'

/-- Rust `str::trim` from the front only. -/
def dropWsFront (cs : List Char) : List Char := cs.dropWhile isWsChar

/-- Rust `str::trim` from the back only. -/
def dropWsBack (cs : List Char) : List Char := (cs.reverse.dropWhile isWsChar).reverse

/-- Rust `str::trim` (both ends). -/
def trimChars (cs : List Char) : List Char := dropWsBack (dropWsFront cs)

/-- Decimal digits, fuelled so the definition reduces inside the kernel;
the fuel strictly dominates the division depth. -/
def natDigitsAux : Nat -> Nat -> List Char
  | 0, _ => []
  | fuel + 1, n =>
    if n < 10 then [Char.ofNat (48 + n)]
    else natDigitsAux fuel (n / 10) ++ [Char.ofNat (48 + n % 10)]

/-- Decimal digits of a natural number, most significant first; the output
of Rust's `format!("{}", n)` for an unsigned integer. -/
def natDigits (n : Nat) : List Char := natDigitsAux (n + 1) n

/-- The output of Rust's `format!("{}", n)` for a signed integer. -/
def intDigits (n : Int) : List Char :=
  if n < 0 then '-' :: natDigits n.natAbs else natDigits n.toNat

/-- Rust `str::to_lowercase` on the ASCII fragment (kernel-computable,
unlike the library `String.toLower`). -/
def asciiLowerChar (c : Char) : Char :=
  if 'A' ≤ c ∧ c ≤ 'Z' then Char.ofNat (c.toNat + 32) else c

def strToLower (s : String) : String := String.mk (s.data.map asciiLowerChar)

def charDigit? (c : Char) : Option Nat :=
  if '0' ≤ c ∧ c ≤ '9' then some (c.toNat - 48) else none

def parseNatCore : List Char → Nat → Option Nat
  | [], acc => some acc
  | c :: cs, acc =>
    match charDigit? c with
    | none => none
    | some d => parseNatCore cs (acc * 10 + d)

/-- Rust `usize::from_str_radix(s, 10)`: optional leading `+`, then at
least one decimal digit.  (The `usize` overflow bound is not modelled;
no claim exercises lengths near `2^64`.) -/
def parseUsizeChars : List Char → Option Nat
  | [] => none
  | c :: rest =>
    if c = '+' then (if rest = [] then none else parseNatCore rest 0)
    else parseNatCore (c :: rest) 0

def i64UpperBound : Int := 9223372036854775808

/-- Rust `i64::from_str_radix(s, 10)`: optional sign, at least one digit,
and the value must fit in a 64-bit signed integer. -/
def parseI64Chars : List Char → Option Int
  | [] => none
  | c :: rest =>
    if c = '-' then
      if rest = [] then none
      else match parseNatCore rest 0 with
        | none => none
        | some n => if (n : Int) ≤ i64UpperBound then some (-(n : Int)) else none
    else if c = '+' then
      if rest = [] then none
      else match parseNatCore rest 0 with
        | none => none
        | some n => if (n : Int) < i64UpperBound then some (n : Int) else none
    else
      match parseNatCore (c :: rest) 0 with
      | none => none
      | some n => if (n : Int) < i64UpperBound then some (n : Int) else none

/-! ## Wire value model — `src/resp.rs`, `enum RespValue` -/

inductive RespValue where
  | SimpleString (s : String)
  | BulkString (s : String)
  | NullBulkString
  | Array (items : List RespValue)
  | NullArray
  | Integer (n : Int)
  | SimpleError (s : String)
  | BulkBytes (bytes : List Char)

def crlf : List Char := ['\r', '\n']

mutual

/-- `RespValue::serialize` (`src/resp.rs` lines 14-49), producing the
byte stream as a char list.  `BulkBytes` payloads are carried as chars
(they are opaque to every claim). -/
def RespValue.serializeChars : RespValue → List Char
  | .SimpleString s => '+' :: s.data ++ crlf
  | .BulkString s => '$' :: natDigits s.data.length ++ crlf ++ s.data ++ crlf
  | .Array items => '*' :: natDigits items.length ++ crlf ++ serializeRespList items
  | .NullBulkString => '$' :: '-' :: '1' :: crlf
  | .Integer n => ':' :: intDigits n ++ crlf
  | .SimpleError s => '-' :: s.data ++ crlf
  | .NullArray => '*' :: '-' :: '1' :: crlf
  | .BulkBytes bytes => '$' :: natDigits bytes.length ++ crlf ++ bytes

/-- The element loop of the `Array` branch of `RespValue::serialize`. -/
def serializeRespList : List RespValue → List Char
  | [] => []
  | v :: vs => v.serializeChars ++ serializeRespList vs

end

/-! ## Wire reader — `src/network.rs`, `StreamReader::read_resp_value`

`read_line_from_tcp_stream` wraps `BufReader::read_line`: it returns all
characters up to and including the first `'\n'`, or the remainder of the
stream (possibly empty) if no newline arrives before EOF. -/

def readLine : List Char → List Char × List Char
  | [] => ([], [])
  | c :: rest =>
    if c = '\n' then ([c], rest)
    else
      let (line, rem) := readLine rest
      (c :: line, rem)

/-- Result of one `read_resp_value` call: a parsed value (or `none` at
clean EOF) together with the unconsumed remainder of the stream, or the
error the Rust function returns. -/
abbrev ReadOut := Except String (Option RespValue × List Char)

mutual

/-- `StreamReader::read_resp_value` (`src/network.rs` lines 44-90) over a
pure char stream.  `fuel` strictly decreases on every recursive call
(Rust's recursion is bounded only by the stream); theorems always supply
enough fuel, and the `fuel = 0` branch is never reached there. -/
def readRespValue : Nat → List Char → ReadOut
  | 0, _ => .error "out-of-fuel"
  | fuel + 1, input =>
    let (line, rest) := readLine input
    if line.isEmpty then .ok (none, rest)
    else if line.head? = some '+' then
      .ok (some (.SimpleString (String.mk (trimChars line.tail))), rest)
    else if line.head? = some '$' then
      match parseUsizeChars (trimChars line.tail) with
      | none => .error "parse-bulk-str-len"
      | some bulkStrLen =>
        let (nextLine, rest₂) := readLine rest
        if (trimChars nextLine).length ≠ bulkStrLen then
          .error "Bulk string len mismatch"
        else
          .ok (some (.BulkString (String.mk (trimChars nextLine))), rest₂)
    else if line.head? = some '*' then
      match parseUsizeChars (trimChars line.tail) with
      | none => .error "parse-array-len"
      | some arrayLen => readArrayItems fuel arrayLen rest []
    else if line.head? = some ':' then
      match parseI64Chars (trimChars line.tail) with
      | none => .error "parse-array-len"
      | some v => .ok (some (.Integer v), rest)
    else .error "Unexpected incoming RESP string from connection"

/-- The item loop of the `*` branch of `read_resp_value`. -/
def readArrayItems : Nat → Nat → List Char → List RespValue → ReadOut
  | _, 0, input, acc => .ok (some (.Array acc.reverse), input)
  | 0, _ + 1, _, _ => .error "out-of-fuel"
  | fuel + 1, n + 1, input, acc =>
    match readRespValue fuel input with
    | .error e => .error e
    | .ok (none, _) => .error "Missing array item"
    | .ok (some item, rest) => readArrayItems fuel n rest (item :: acc)

end

/-- The reader at the top of a connection: fuel `|input| + 2` dominates
the recursion any stream of that length can force. -/
def readRespValueTop (input : List Char) : ReadOut :=
  readRespValue (input.length + 2) input

/-! ## Glob pattern matcher — `src/common.rs`, `PatternMatcher`

`PatternMatcher::new` builds the regex `^<raw.replace('*',".*").replace('?',".")>$`
and compiles it with the `regex` crate, `unwrap`ping the result (a panic on
an invalid regex).  The model compiles the transformed body into a small
item list and matches it against the whole key, mirroring the `^`/`$`
anchors; `is_match` then runs a standard backtracking matcher.  Constructs
of the `regex` crate grammar outside the fragment reachable from simple
patterns (groups, classes, repetitions bounds, alternation, escapes, inner
anchors) are modelled as compilation failure `none`, standing for the
`Regex::new(..).unwrap()` panic; no theorem evaluates the matcher on a
pattern containing them except `(`, which really is rejected by
`Regex::new` (unclosed group). -/

inductive RAtom where
  | chr (c : Char)
  | dot

inductive RQuant where
  | one
  | star
  | plus

abbrev RItem := RAtom × RQuant

/-- Characters that make the transformed pattern leave the modelled regex
fragment. -/
def regexMetaErr (c : Char) : Bool :=
  c = '(' || c = ')' || c = '[' || c = ']' || c = '{' || c = '}' ||
    c = '|' || c = '\\' || c = '^' || c = '$'

def regexCompile : List Char → Option (List RItem)
  | [] => some []
  | c :: rest =>
    if c = '*' || c = '+' then none
    else if regexMetaErr c then none
    else
      let atom := if c = '.' then RAtom.dot else RAtom.chr c
      match rest with
      | [] => some [(atom, RQuant.one)]
      | q :: rest' =>
        if q = '*' then (regexCompile rest').map fun items => (atom, RQuant.star) :: items
        else if q = '+' then (regexCompile rest').map fun items => (atom, RQuant.plus) :: items
        else (regexCompile (q :: rest')).map fun items => (atom, RQuant.one) :: items

/-- `raw.replace('*', ".*").replace('?', ".")` from `PatternMatcher::new`. -/
def patternTransform (cs : List Char) : List Char :=
  (cs.flatMap fun c => if c = '*' then ['.', '*'] else [c]).map
    fun c => if c = '?' then '.' else c

def PatternMatcher.new (raw : String) : Option (List RItem) :=
  regexCompile (patternTransform raw.data)

/-- `.` in the `regex` crate matches any character except `\n` by default. -/
def atomMatch : RAtom → Char → Bool
  | .chr c, x => c = x
  | .dot, x => x ≠ '\n'

/-- Anchored backtracking matcher for the compiled items (the `^...$`
wrapper makes `is_match` a whole-string match).  `fuel` strictly
decreases on every call, keeping the matcher kernel-computable; every
call strictly shrinks the pair (remaining items, remaining chars), so
`items + chars + 1` fuel always suffices (as the equivalence lemma below
exploits). -/
def rmatch : Nat → List RItem → List Char → Bool
  | 0, _, _ => false
  | _ + 1, [], [] => true
  | _ + 1, [], _ :: _ => false
  | _ + 1, (_, .one) :: _, [] => false
  | fuel + 1, (a, .one) :: rs, c :: cs => atomMatch a c && rmatch fuel rs cs
  | fuel + 1, (a, .star) :: rs, s =>
    rmatch fuel rs s ||
      (match s with
       | [] => false
       | c :: cs => atomMatch a c && rmatch fuel ((a, .star) :: rs) cs)
  | _ + 1, (_, .plus) :: _, [] => false
  | fuel + 1, (a, .plus) :: rs, c :: cs => atomMatch a c && rmatch fuel ((a, .star) :: rs) cs

def PatternMatcher.isMatch (m : List RItem) (s : String) : Bool :=
  rmatch (m.length + s.data.length + 1) m s.data

/-- The glob semantics in the spec's words ("`*` matching any sequence and
`?` matching any single byte; no other metacharacters"), for comparison
with the implementation. -/
def globMatchSpec : List Char → List Char → Bool
  | [], s => s.isEmpty
  | p :: ps, s =>
    if p = '*' then
      globMatchSpec ps s ||
        (match s with
         | [] => false
         | _ :: cs => globMatchSpec (p :: ps) cs)
    else
      match s with
      | [] => false
      | c :: cs => (if p = '?' then true else p = c) && globMatchSpec ps cs
termination_by ps s => (s.length, ps.length)

/-- A pattern character that survives the transformation untouched and is
an ordinary regex literal. -/
def safePatternChar (c : Char) : Bool :=
  !(regexMetaErr c || c = '.' || c = '+' || c = '*' || c = '?')

/-- The item list `regexCompile` produces for a glob-only pattern:
`*` ↦ `.*`, `?` ↦ `.`, anything else a literal. -/
def trItems : List Char → List RItem
  | [] => []
  | c :: ps =>
    if c = '*' then (RAtom.dot, RQuant.star) :: trItems ps
    else if c = '?' then (RAtom.dot, RQuant.one) :: trItems ps
    else (RAtom.chr c, RQuant.one) :: trItems ps

/-! ## Stream entry ids — `src/common.rs` -/

structure CompleteStreamEntryID where
  ms : Nat
  seq : Nat
  deriving DecidableEq, Repr

def u128Max : Nat := 2 ^ 128 - 1

def usizeMax : Nat := 2 ^ 64 - 1

/-- `CompleteStreamEntryID::max()`. -/
def CompleteStreamEntryID.maxId : CompleteStreamEntryID := ⟨u128Max, usizeMax⟩

/-- `CompleteStreamEntryID::to_string()`: `format!("{}-{}", ms, seq)`. -/
def CompleteStreamEntryID.toDashString (id : CompleteStreamEntryID) : String :=
  String.mk (natDigits id.ms ++ '-' :: natDigits id.seq)

/-- The `PartialOrd` implementation: lexicographic on `(ms, seq)`. -/
def idLt (a b : CompleteStreamEntryID) : Bool :=
  a.ms < b.ms || (a.ms = b.ms && a.seq < b.seq)

def idLe (a b : CompleteStreamEntryID) : Bool :=
  a.ms < b.ms || (a.ms = b.ms && a.seq ≤ b.seq)

inductive StreamEntryID where
  | Wildcard
  | MsOnly (ms : Nat)
  | Full (id : CompleteStreamEntryID)

/-- `StreamEntryID::to_resp_string()`. -/
def StreamEntryID.toRespString : StreamEntryID → String
  | .Wildcard => "*"
  | .MsOnly ms => String.mk (natDigits ms)
  | .Full id => id.toDashString

inductive RangeStreamEntryID where
  | Fixed (id : CompleteStreamEntryID)
  | Latest

/-! ## Typed store — `src/database.rs`

The `HashMap<String, Entry>` dictionary is modelled as an association
list with key-preserving update; each `Database::` method mirrors the
source method of the same (camel-cased) name.  Mutating methods return
the updated dictionary next to the `Result`, matching `&mut self`
mutations that survive an `Err` return.  A branch the source guards with
an `assert_*` call and then treats as `unreachable!()` is modelled as the
error string `"unreachable"`: the preceding assert makes it dead. -/

structure StreamValue where
  id : CompleteStreamEntryID
  kvpairs : List (String × String)

inductive Entry where
  | Value (value : String) (expiryTimestampMs : Option Nat)
  | Array (items : List String)
  | Stream (entries : List StreamValue)

def Entry.isValue : Entry → Bool
  | .Value _ _ => true
  | _ => false

def Entry.isArray : Entry → Bool
  | .Array _ => true
  | _ => false

def Entry.isStream : Entry → Bool
  | .Stream _ => true
  | _ => false

def Entry.typeName : Entry → String
  | .Array _ => "list"
  | .Value _ _ => "string"
  | .Stream _ => "stream"

abbrev Database := List (String × Entry)

def dbContains (db : Database) (k : String) : Bool := db.any fun p => p.1 = k

def dbGetEntry (db : Database) (k : String) : Option Entry :=
  (db.find? fun p => p.1 = k).map fun p => p.2

/-- `HashMap` insert-or-replace. -/
def dbSetEntry : Database → String → Entry → Database
  | [], k, e => [(k, e)]
  | (k', e') :: rest, k, e =>
    if k' = k then (k, e) :: rest else (k', e') :: dbSetEntry rest k e

def wrongTypeError : String :=
  "WRONGTYPE Operation against a key holding the wrong kind of value"

def unreachableMsg : String := "unreachable"

def Database.assertArray (db : Database) (k : String) : Except String Unit :=
  match dbGetEntry db k with
  | some e => if e.isArray then .ok () else .error wrongTypeError
  | none => .ok ()

def Database.assertSingleValue (db : Database) (k : String) : Except String Unit :=
  match dbGetEntry db k with
  | some e => if e.isValue then .ok () else .error wrongTypeError
  | none => .ok ()

def Database.assertStream (db : Database) (k : String) : Except String Unit :=
  match dbGetEntry db k with
  | some e => if e.isStream then .ok () else .error wrongTypeError
  | none => .ok ()

/-- `Database::set`: the entry's value and expiry are both overwritten
(or freshly inserted); `expiry_ms` is converted to the absolute instant
`now_ms + ttl` at call time. -/
def Database.set (nowMs : Nat) (key value : String) (expiryMs : Option Nat)
    (db : Database) : Database × Except String Unit :=
  match db.assertSingleValue key with
  | .error e => (db, .error e)
  | .ok _ =>
    let expiryTimestampMs := expiryMs.map fun ttl => nowMs + ttl
    (dbSetEntry db key (.Value value expiryTimestampMs), .ok ())

/-- `Database::get`: an expired entry reads as `none` (`>=` keeps the
value alive at the exact expiry instant, as in the source). -/
def Database.get (nowMs : Nat) (key : String) (db : Database) :
    Except String (Option String) :=
  match db.assertSingleValue key with
  | .error e => .error e
  | .ok _ =>
    match dbGetEntry db key with
    | none => .ok none
    | some (.Value v expiry) =>
      match expiry with
      | some expiryTimestampMs =>
        if expiryTimestampMs ≥ nowMs then .ok (some v) else .ok none
      | none => .ok (some v)
    | some _ => .error unreachableMsg

/-- `Database::push_to_array` (`RPUSH`). -/
def Database.pushToArray (key : String) (values : List String) (db : Database) :
    Database × Except String Nat :=
  match db.assertArray key with
  | .error e => (db, .error e)
  | .ok _ =>
    match dbGetEntry db key with
    | none =>
      (dbSetEntry db key (.Array values), .ok values.length)
    | some (.Array items) =>
      let items' := items ++ values
      (dbSetEntry db key (.Array items'), .ok items'.length)
    | some _ => (db, .error unreachableMsg)

/-- `Database::insert_to_array` (`LPUSH`): each value is pushed to the
front in order. -/
def Database.insertToArray (key : String) (values : List String) (db : Database) :
    Database × Except String Nat :=
  match db.assertArray key with
  | .error e => (db, .error e)
  | .ok _ =>
    match dbGetEntry db key with
    | none =>
      let items' := values.foldl (fun acc v => v :: acc) []
      (dbSetEntry db key (.Array items'), .ok items'.length)
    | some (.Array items) =>
      let items' := values.foldl (fun acc v => v :: acc) items
      (dbSetEntry db key (.Array items'), .ok items'.length)
    | some _ => (db, .error unreachableMsg)

/-- The index loop of `get_list_lrange` after the negative indices were
resolved: elements `s..=e`, stopping at the list's end. -/
def lrangeSlice (arr : List String) (s e : Int) : List String :=
  if s > e then []
  else (arr.drop s.toNat).take (e - s + 1).toNat

def Database.getListLrange (key : String) (start fin : Int) (db : Database) :
    Except String (List String) :=
  match db.assertArray key with
  | .error e => .error e
  | .ok _ =>
    match dbGetEntry db key with
    | none => .ok []
    | some (.Array items) =>
      let start' := if start < 0 then max (start + items.length) 0 else start
      let fin' := if fin < 0 then max (fin + items.length) 0 else fin
      .ok (lrangeSlice items start' fin')
    | some _ => .error unreachableMsg

def Database.listLength (key : String) (db : Database) : Except String Nat :=
  match db.assertArray key with
  | .error e => .error e
  | .ok _ =>
    match dbGetEntry db key with
    | none => .ok 0
    | some (.Array items) => .ok items.length
    | some _ => .error unreachableMsg

def Database.listPopOneFront (key : String) (db : Database) :
    Database × Except String (Option String) :=
  match db.assertArray key with
  | .error e => (db, .error e)
  | .ok _ =>
    match dbGetEntry db key with
    | none => (db, .ok none)
    | some (.Array []) => (db, .ok none)
    | some (.Array (x :: xs)) => (dbSetEntry db key (.Array xs), .ok (some x))
    | some _ => (db, .error unreachableMsg)

def Database.listPopOneBack (key : String) (db : Database) :
    Database × Except String (Option String) :=
  match db.assertArray key with
  | .error e => (db, .error e)
  | .ok _ =>
    match dbGetEntry db key with
    | none => (db, .ok none)
    | some (.Array items) =>
      match items.getLast? with
      | none => (db, .ok none)
      | some x => (dbSetEntry db key (.Array items.dropLast), .ok (some x))
    | some _ => (db, .error unreachableMsg)

/-- `Database::list_pop_multi_front` (`LPOP key n`): `None` both for a
missing key and for an existing empty list; otherwise the `0..n` pop
loop, i.e. the first `min n len` elements. -/
def Database.listPopMultiFront (key : String) (n : Nat) (db : Database) :
    Database × Except String (Option (List String)) :=
  match db.assertArray key with
  | .error e => (db, .error e)
  | .ok _ =>
    match dbGetEntry db key with
    | none => (db, .ok none)
    | some (.Array items) =>
      if items.isEmpty then (db, .ok none)
      else (dbSetEntry db key (.Array (items.drop n)), .ok (some (items.take n)))
    | some _ => (db, .error unreachableMsg)

def Database.listPopMultiBack (key : String) (n : Nat) (db : Database) :
    Database × Except String (Option (List String)) :=
  match db.assertArray key with
  | .error e => (db, .error e)
  | .ok _ =>
    match dbGetEntry db key with
    | none => (db, .ok none)
    | some (.Array items) =>
      if items.isEmpty then (db, .ok none)
      else
        (dbSetEntry db key (.Array (items.reverse.drop n).reverse),
          .ok (some (items.reverse.take n)))
    | some _ => (db, .error unreachableMsg)

def Database.getKeyTypeName (key : String) (db : Database) : String :=
  match dbGetEntry db key with
  | some e => e.typeName
  | none => "none"

/-- `Database::resolve_stream_entry_id` (`src/database.rs` lines 476-518).
`now_ms` stands for `current_time_ms()`. -/
def Database.resolveStreamEntryId (nowMs : Nat) (id : StreamEntryID)
    (stream : List StreamValue) : Except String CompleteStreamEntryID :=
  let ms := match id with
    | .Full c => c.ms
    | .MsOnly m => m
    | .Wildcard => nowMs
  let seq := match id with
    | .Full c => c.seq
    | _ =>
      stream.foldl
        (fun acc e => if e.id.ms = ms ∧ e.id.seq ≥ acc then e.id.seq + 1 else acc)
        (if ms = 0 then 1 else 0)
  if ms = 0 ∧ seq = 0 then
    .error "ERR The ID specified in XADD must be greater than 0-0"
  else if stream.any (fun e => ms < e.id.ms ∨ (e.id.ms = ms ∧ seq ≤ e.id.seq)) then
    .error "ERR The ID specified in XADD is equal or smaller than the target stream top item"
  else .ok ⟨ms, seq⟩

/-- `Database::stream_push`: note that the source inserts an empty stream
entry for a missing key with `entry(key).or_insert(..)` BEFORE resolving
(and possibly rejecting) the id, so the insertion survives the error. -/
def Database.streamPush (nowMs : Nat) (key : String) (id : StreamEntryID)
    (kvpairs : List (String × String)) (db : Database) :
    Database × Except String CompleteStreamEntryID :=
  match db.assertStream key with
  | .error e => (db, .error e)
  | .ok _ =>
    let stream := match dbGetEntry db key with
      | some (.Stream entries) => entries
      | _ => []
    let db₁ := if dbContains db key then db else dbSetEntry db key (.Stream [])
    match Database.resolveStreamEntryId nowMs id stream with
    | .error e => (db₁, .error e)
    | .ok rid =>
      (dbSetEntry db₁ key (.Stream (stream ++ [⟨rid, kvpairs⟩])), .ok rid)

/-- `Database::stream_read_single_from_id_exclusive`: the scan loop keeps
the first `count` entries inside the (in/ex)clusive id range. -/
def Database.streamReadSingleFromIdExclusive (key : String)
    (start : CompleteStreamEntryID) (startInclusive : Bool)
    (fin : CompleteStreamEntryID) (finInclusive : Bool) (count : Nat)
    (db : Database) : Except String (List StreamValue) :=
  match db.assertStream key with
  | .error e => .error e
  | .ok _ =>
    match dbGetEntry db key with
    | none => .ok []
    | some (.Stream entries) =>
      .ok (((entries.filter fun e =>
          (if startInclusive then idLe start e.id else idLt start e.id) &&
            (if finInclusive then idLe e.id fin else idLt e.id fin))).take count)
    | some _ => .error unreachableMsg

def Database.streamGetRange (key : String) (start fin : CompleteStreamEntryID)
    (count : Nat) (db : Database) : Except String (List StreamValue) :=
  db.streamReadSingleFromIdExclusive key start true fin true count

def Database.streamReadMultiFromIdExclusive
    (keyIdPairs : List (String × CompleteStreamEntryID)) (count : Nat)
    (db : Database) : Except String (List (String × List StreamValue)) :=
  match keyIdPairs with
  | [] => .ok []
  | (key, start) :: rest =>
    match db.streamReadSingleFromIdExclusive key start false
        CompleteStreamEntryID.maxId true count with
    | .error e => .error e
    | .ok stream =>
      match db.streamReadMultiFromIdExclusive rest count with
      | .error e => .error e
      | .ok streams =>
        .ok (if stream.isEmpty then streams else (key, stream) :: streams)

def Database.resolveLatestStreamId (key : String) (db : Database) :
    Except String CompleteStreamEntryID :=
  match db.assertStream key with
  | .error e => .error e
  | .ok _ =>
    match dbGetEntry db key with
    | none => .ok ⟨0, 0⟩
    | some (.Stream entries) =>
      match entries.getLast? with
      | none => .ok ⟨0, 0⟩
      | some last => .ok last.id
    | some _ => .error unreachableMsg

/-- `Database::incr`: a missing key is created as `"0"` first; the stored
string must parse as an `i64`; the expiry of an existing entry is kept. -/
def Database.incr (key : String) (db : Database) : Database × Except String Int :=
  match db.assertSingleValue key with
  | .error e => (db, .error e)
  | .ok _ =>
    match dbGetEntry db key with
    | none =>
      (dbSetEntry db key (.Value (String.mk (intDigits 1)) none), .ok 1)
    | some (.Value v expiry) =>
      match parseI64Chars v.data with
      | none => (db, .error "ERR value is not an integer or out of range")
      | some num =>
        (dbSetEntry db key (.Value (String.mk (intDigits (num + 1))) expiry),
          .ok (num + 1))
    | some _ => (db, .error unreachableMsg)

/-- `Database::keys`: `PatternMatcher::new` may panic (`none`); otherwise
all keys matching the compiled pattern, in dictionary order. -/
def Database.keys (rawPattern : String) (db : Database) : Option (List String) :=
  (PatternMatcher.new rawPattern).map fun m =>
    (db.map fun p => p.1).filter fun k => PatternMatcher.isMatch m k

def Database.clear (_db : Database) : Database := []


/-! ## Command model — `src/commands.rs`, `enum Command`

`f64` fields (blocking-pop timeouts, sorted-set scores, coordinates) are
carried as `Rat`: no claim interprets them, and the engine model never
reads them (the source engine has no match arm for the sorted-set
commands, and the sequential blocking model ignores the timeout value).
`TypeCmd` stands for the source variant `Type`, a reserved word here. -/

/-- Stands for Rust's `{}` Display of an `f64` score; never evaluated by a
theorem (only the unreachable `into_resp` arms of unexecutable commands
use it). -/
def f64Display (q : Rat) : String := toString q

inductive Command where
  | Ping
  | Echo (s : String)
  | Set (key value : String) (expiryMs : Option Nat)
  | Get (key : String)
  | Rpush (key : String) (values : List String)
  | Lpush (key : String) (values : List String)
  | Lrange (key : String) (start fin : Int)
  | Llen (key : String)
  | Lpop (key : String)
  | Rpop (key : String)
  | Lpopn (key : String) (n : Nat)
  | Rpopn (key : String) (n : Nat)
  | Blpop (keys : List String) (timeoutSecs : Rat)
  | Brpop (keys : List String) (timeoutSecs : Rat)
  | TypeCmd (key : String)
  | Xadd (key : String) (id : StreamEntryID) (kvpairs : List (String × String))
  | Xrange (key : String) (start fin : RangeStreamEntryID) (count : Nat)
  | Xread (keyIdPairs : List (String × RangeStreamEntryID)) (count : Nat)
      (blockingTtlMs : Option Nat)
  | Incr (key : String)
  | Multi
  | Exec
  | Discard
  | Info (sections : List String)
  | Replconf (args : List String)
  | Psync (replicationId : String) (offset : Int)
  | Wait (replicaCount : Nat) (timeoutMs : Nat)
  | GetConfig (params : List String)
  | Keys (pattern : String)
  | Subscribe (channels : List String)
  | Unsubscribe (channels : List String)
  | Publish (channel message : String)
  | Zadd (key : String) (pairs : List (Rat × String))
  | Zrank (key member : String)
  | Zrange (key : String) (minIdx maxIdx : Int)
  | Zcard (key : String)
  | Zscore (key member : String)
  | Zrem (key : String) (members : List String)
  | Geoadd (key : String) (triples : List (Rat × Rat × String))
  | Unknown (name : String)

def Command.isExec : Command → Bool
  | .Exec => true
  | _ => false

def Command.isMulti : Command → Bool
  | .Multi => true
  | _ => false

def Command.isDiscard : Command → Bool
  | .Discard => true
  | _ => false

def Command.isPsync : Command → Bool
  | .Psync _ _ => true
  | _ => false

def Command.isReplconf : Command → Bool
  | .Replconf _ => true
  | _ => false

def Command.isSubscribe : Command → Bool
  | .Subscribe _ => true
  | _ => false

/-- `Command::for_replication`: exactly `SET, RPUSH, LPUSH, LPOP, RPOP,
LPOPN, RPOPN, XADD, INCR, ZADD, GEOADD`. -/
def Command.forReplication : Command → Bool
  | .Set _ _ _ => true
  | .Rpush _ _ => true
  | .Lpush _ _ => true
  | .Lpop _ => true
  | .Rpop _ => true
  | .Lpopn _ _ => true
  | .Rpopn _ _ => true
  | .Xadd _ _ _ => true
  | .Incr _ => true
  | .Zadd _ _ => true
  | .Geoadd _ _ => true
  | _ => false

/-- `Command::into_resp`: the wire form used for replication.  The
source's catch-all arm is `unimplemented!()`, modelled as `none`. -/
def Command.intoResp : Command → Option RespValue
  | .Set key value expiry =>
    some (.Array ([.BulkString "SET", .BulkString key, .BulkString value] ++
      (match expiry with
       | some expiryMs => [.BulkString "PX", .BulkString (String.mk (natDigits expiryMs))]
       | none => [])))
  | .Rpush key args =>
    some (.Array ([.BulkString "RPUSH", .BulkString key] ++ args.map .BulkString))
  | .Lpush key args =>
    some (.Array ([.BulkString "LPUSH", .BulkString key] ++ args.map .BulkString))
  | .Lpop key => some (.Array [.BulkString "LPOP", .BulkString key])
  | .Rpop key => some (.Array [.BulkString "RPOP", .BulkString key])
  | .Lpopn key count =>
    some (.Array [.BulkString "LPOP", .BulkString key,
      .BulkString (String.mk (natDigits count))])
  | .Rpopn key count =>
    some (.Array [.BulkString "RPOP", .BulkString key,
      .BulkString (String.mk (natDigits count))])
  | .Xadd key streamId keyValuePairs =>
    some (.Array ([.BulkString "XADD", .BulkString key,
      .BulkString streamId.toRespString] ++
      (keyValuePairs.flatMap fun kv => [.BulkString kv.1, .BulkString kv.2])))
  | .Incr key => some (.Array [.BulkString "INCR", .BulkString key])
  | .Zadd key args =>
    some (.Array ([.BulkString "ZADD", .BulkString key] ++
      (args.flatMap fun p => [.BulkString (f64Display p.1), .BulkString p.2])))
  | .Geoadd key args =>
    some (.Array ([.BulkString "GEOADD", .BulkString key] ++
      (args.flatMap fun t => [.BulkString (f64Display t.1),
        .BulkString (f64Display t.2.1), .BulkString t.2.2])))
  | _ => none

/-! ## Replication bookkeeping — `src/common.rs` -/

inductive ClientCapability where
  | Psync2
  deriving DecidableEq

def ClientCapability.fromStr (raw : String) : Option ClientCapability :=
  if strToLower raw = "psync2" then some .Psync2 else none

inductive ClientOffsetUpdate where
  | UpdateRequested
  | Updating
  | Idle
  deriving DecidableEq

structure ClientInfo where
  port : Option Nat
  capabilities : List ClientCapability
  lastSyncedCommandIndex : Int
  offset : Nat
  offsetUpdate : ClientOffsetUpdate

def ClientInfo.new : ClientInfo :=
  { port := none, capabilities := [], lastSyncedCommandIndex := -1, offset := 0,
    offsetUpdate := .Idle }

structure WriterRole where
  replid : String
  offset : Nat
  clients : List (Nat × ClientInfo)
  writeQueue : List Command

/-- `WriterRole::push_write_command`: the leader's replication offset
grows by the serialized length of the command's wire form; `none` stands
for the `unimplemented!()` panic inside `into_resp` (unreachable: only
propagatable commands are pushed). -/
def WriterRole.pushWriteCommand (w : WriterRole) (c : Command) : Option WriterRole :=
  c.intoResp.map fun r =>
    { w with offset := w.offset + r.serializeChars.length,
             writeQueue := w.writeQueue ++ [c] }

inductive ReplicationRole where
  | Reader (writerHost : String) (writerPort : Nat)
  | Writer (w : WriterRole)

def ReplicationRole.isWriter : ReplicationRole → Bool
  | .Writer _ => true
  | _ => false

/-! ## Command engine — `src/engine.rs`

`EngineState` collects the pieces of `struct Engine` state a command can
read or write: the store, the per-connection transaction buffers and the
replication role.  `EngineEnv` holds the constants of a run: the time
snapshot standing for `current_time_ms()` and the configured
`dir`/`dbfilename`. -/

inductive ArrayDirection where
  | Front
  | Back

structure EngineState where
  db : Database
  transactionStore : List (Nat × List Command)
  replicationRole : ReplicationRole

structure EngineEnv where
  nowMs : Nat
  dir : String
  dbfilename : String

/-- The possible fates of one engine call. -/
inductive EngineOutcome where
  | ok (st : EngineState) (value : RespValue)
  | err (st : EngineState) (msg : String)
  | panicked (msg : String)
  | unmodeled (what : String)

def txGet (st : EngineState) (rc : Nat) : Option (List Command) :=
  ((st.transactionStore.find? fun p => p.1 = rc).map fun p => p.2)

def txContains (st : EngineState) (rc : Nat) : Bool :=
  st.transactionStore.any fun p => p.1 = rc

def txSetList : List (Nat × List Command) → Nat → List Command → List (Nat × List Command)
  | [], rc, cmds => [(rc, cmds)]
  | (rc', cmds') :: rest, rc, cmds =>
    if rc' = rc then (rc, cmds) :: rest else (rc', cmds') :: txSetList rest rc cmds

def txInsert (st : EngineState) (rc : Nat) (cmds : List Command) : EngineState :=
  { st with transactionStore := txSetList st.transactionStore rc cmds }

def txRemove (st : EngineState) (rc : Nat) : EngineState :=
  { st with transactionStore := st.transactionStore.filter fun p => p.1 ≠ rc }

def clientsGet (clients : List (Nat × ClientInfo)) (rc : Nat) : Option ClientInfo :=
  (clients.find? fun p => p.1 = rc).map fun p => p.2

def clientsSet : List (Nat × ClientInfo) → Nat → ClientInfo → List (Nat × ClientInfo)
  | [], rc, info => [(rc, info)]
  | (rc', info') :: rest, rc, info =>
    if rc' = rc then (rc, info) :: rest else (rc', info') :: clientsSet rest rc info

def infoSections : List String := ["replication"]

/-- `Engine::section_info`. -/
def sectionInfo (role : ReplicationRole) (sectionName : String) : String :=
  if sectionName = "replication" then
    match role with
    | .Writer w =>
      "# Replication\r\nrole:master\r\nmaster_replid:" ++ w.replid ++
        "\r\nmaster_repl_offset:" ++ String.mk (natDigits w.offset) ++ "\r\n\r\n"
    | .Reader _ _ => "# Replication\r\nrole:slave\r\n\r\n"
  else ""

/-- `Engine::stream_to_resp`. -/
def streamToResp (entries : List StreamValue) : RespValue :=
  .Array (entries.map fun v =>
    .Array [.BulkString v.id.toDashString,
      .Array (v.kvpairs.flatMap fun kv => [.BulkString kv.1, .BulkString kv.2])])

/-- Rust `u16::from_str_radix(s, 10)`. -/
def parseU16Chars (cs : List Char) : Option Nat :=
  match parseUsizeChars cs with
  | none => none
  | some n => if n < 65536 then some n else none

def popOneDb (dir : ArrayDirection) (key : String) (db : Database) :
    Database × Except String (Option String) :=
  match dir with
  | .Back => Database.listPopOneBack key db
  | .Front => Database.listPopOneFront key db

/-- `Engine::push`. -/
def Engine.push (key : String) (values : List String) (dir : ArrayDirection)
    (st : EngineState) : EngineOutcome :=
  let result := match dir with
    | .Back => Database.pushToArray key values st.db
    | .Front => Database.insertToArray key values st.db
  match result with
  | (db', .ok count) => .ok { st with db := db' } (.Integer count)
  | (db', .error e) => .ok { st with db := db' } (.SimpleError e)

/-- `Engine::pop`. -/
def Engine.pop (key : String) (dir : ArrayDirection) (st : EngineState) : EngineOutcome :=
  match popOneDb dir key st.db with
  | (db', .ok (some v)) => .ok { st with db := db' } (.BulkString v)
  | (db', .ok none) => .ok { st with db := db' } .NullBulkString
  | (db', .error e) => .ok { st with db := db' } (.SimpleError e)

/-- `Engine::pop_multi`: note `Ok(None)` — both a missing key and an
existing empty list — replies with the null bulk string. -/
def Engine.popMulti (key : String) (n : Nat) (dir : ArrayDirection)
    (st : EngineState) : EngineOutcome :=
  let result := match dir with
    | .Back => Database.listPopMultiBack key n st.db
    | .Front => Database.listPopMultiFront key n st.db
  match result with
  | (db', .ok (some elems)) => .ok { st with db := db' } (.Array (elems.map .BulkString))
  | (db', .ok none) => .ok { st with db := db' } .NullBulkString
  | (db', .error e) => .ok { st with db := db' } (.SimpleError e)

/-- `Engine::blocking_pop`, sequential semantics: the key scan; a
`WRONGTYPE` from a scanned key is propagated with `?` (an engine-level
error, not a reply); if no key yields a value the deadline path answers
the null array. -/
def Engine.blockingPop (keys : List String) (dir : ArrayDirection)
    (st : EngineState) : EngineOutcome :=
  match keys with
  | [] => .ok st .NullArray
  | key :: rest =>
    match popOneDb dir key st.db with
    | (db', .error e) => .err { st with db := db' } e
    | (db', .ok (some v)) =>
      .ok { st with db := db' } (.Array [.BulkString key, .BulkString v])
    | (_, .ok none) => Engine.blockingPop rest dir st

/-- `Engine::wait`, sequential semantics: the first scan marks every
lagging follower `UpdateRequested` and the reply is the count of
followers whose acknowledged offset already reaches the leader offset.
The first line of the source calls `.writer()` before the loop, a panic
on a follower node. -/
def Engine.waitRun (st : EngineState) : EngineOutcome :=
  match st.replicationRole with
  | .Reader _ _ => .panicked "Caller must ensure role is writer"
  | .Writer w =>
    let upCount := (w.clients.filter fun p => w.offset ≤ p.2.offset).length
    let clients' := w.clients.map fun p =>
      if w.offset ≤ p.2.offset then p
      else if p.2.offsetUpdate = .Idle then
        (p.1, { p.2 with offsetUpdate := .UpdateRequested })
      else p
    .ok { st with replicationRole := .Writer { w with clients := clients' } }
      (.Integer upCount)

/-- The `Command::Replconf` arm of `execute_only`. -/
def Engine.replconfRun (args : List String) (rc : Option Nat) (currentOffset : Nat)
    (st : EngineState) : EngineOutcome :=
  match st.replicationRole with
  | .Writer w =>
    match args with
    | [a0, a1] =>
      if strToLower a0 = "listening-port" then
        match parseU16Chars a1.data with
        | none => .panicked "convert-port"
        | some port =>
          match rc with
          | none => .panicked "unwrap-none-request-count"
          | some rcv =>
            let info := (clientsGet w.clients rcv).getD ClientInfo.new
            let w' := { w with
              clients := clientsSet w.clients rcv { info with port := some port } }
            .ok { st with replicationRole := .Writer w' } (.SimpleString "OK")
      else if strToLower a0 = "capa" then
        match ClientCapability.fromStr a1 with
        | none => .err st "ERR invalid client capability"
        | some capa =>
          match rc with
          | none => .panicked "unwrap-none-request-count"
          | some rcv =>
            let info := (clientsGet w.clients rcv).getD ClientInfo.new
            let caps' := if capa ∈ info.capabilities then info.capabilities
              else info.capabilities ++ [capa]
            let w' := { w with
              clients := clientsSet w.clients rcv { info with capabilities := caps' } }
            .ok { st with replicationRole := .Writer w' } (.SimpleString "OK")
      else if strToLower a0 = "ack" then
        match parseUsizeChars a1.data with
        | none => .err st "invalid digit found in string"
        | some clientOffset =>
          match rc with
          | none => .panicked "unwrap-none-request-count"
          | some rcv =>
            match clientsGet w.clients rcv with
            | none => .panicked "Missing client"
            | some info =>
              let w' := { w with
                clients := clientsSet w.clients rcv
                  { info with offset := clientOffset, offsetUpdate := .Idle } }
              .ok { st with replicationRole := .Writer w' } .NullBulkString
      else .ok st (.SimpleError "ERR unrecognized argument for 'replconf' command")
    | _ => .ok st (.SimpleError "ERR unrecognized argument for 'replconf' command")
  | .Reader _ _ =>
    match args with
    | [a0, _] =>
      if strToLower a0 = "getack" then
        .ok st (.Array [.BulkString "REPLCONF", .BulkString "ACK",
          .BulkString (String.mk (natDigits currentOffset))])
      else .ok st (.SimpleError "ERR writer commands on a non-writer node")
    | _ => .ok st (.SimpleError "ERR writer commands on a non-writer node")

/-- The parameter loop of the `Command::GetConfig` arm; `none` stands for
the `PatternMatcher::new(..)` panic on a regex-invalid parameter. -/
def getConfigLoop (env : EngineEnv) : List String → List RespValue →
    Option (List RespValue)
  | [], acc => some acc
  | param :: rest, acc =>
    match PatternMatcher.new (strToLower param) with
    | none => none
    | some m =>
      if PatternMatcher.isMatch m "dir" then
        getConfigLoop env rest (acc ++ [.BulkString "dir", .BulkString env.dir])
      else if PatternMatcher.isMatch m "dbfilename" then
        getConfigLoop env rest
          (acc ++ [.BulkString "dbfilename", .BulkString env.dbfilename])
      else getConfigLoop env rest acc

def Engine.getConfigRun (env : EngineEnv) (params : List String)
    (st : EngineState) : EngineOutcome :=
  match getConfigLoop env params [] with
  | none => .panicked "invalid regex in CONFIG GET parameter"
  | some values => .ok st (.Array values)

def resolveRangeId (db : Database) (key : String) :
    RangeStreamEntryID → Except String CompleteStreamEntryID
  | .Fixed v => .ok v
  | .Latest => db.resolveLatestStreamId key

/-- The `Command::Xrange` arm: `Latest` endpoints resolve through `?`
(an engine-level error on failure), the range read itself replies a
`SimpleError` on failure. -/
def Engine.xrangeRun (key : String) (start fin : RangeStreamEntryID) (count : Nat)
    (st : EngineState) : EngineOutcome :=
  if count = 0 then .ok st .NullBulkString
  else
    match resolveRangeId st.db key start with
    | .error e => .err st e
    | .ok s =>
      match resolveRangeId st.db key fin with
      | .error e => .err st e
      | .ok f =>
        match st.db.streamGetRange key s f count with
        | .ok entries => .ok st (streamToResp entries)
        | .error e => .ok st (.SimpleError e)

def xreadResolve (db : Database) :
    List (String × RangeStreamEntryID) →
      Except String (List (String × CompleteStreamEntryID))
  | [] => .ok []
  | (key, rid) :: rest =>
    match resolveRangeId db key rid with
    | .error e => .error e
    | .ok v =>
      match xreadResolve db rest with
      | .error e => .error e
      | .ok resolved => .ok ((key, v) :: resolved)

/-- The `Command::Xread` arm, sequential semantics: a non-empty result or
a non-blocking call replies immediately; a blocking call with no data
reaches the deadline and replies the null array. -/
def Engine.xreadRun (keyIdPairs : List (String × RangeStreamEntryID)) (count : Nat)
    (blockingTtl : Option Nat) (st : EngineState) : EngineOutcome :=
  match xreadResolve st.db keyIdPairs with
  | .error e => .err st e
  | .ok resolved =>
    match st.db.streamReadMultiFromIdExclusive resolved count with
    | .error e => .ok st (.SimpleError e)
    | .ok result =>
      if !result.isEmpty || blockingTtl.isNone then
        .ok st (.Array (result.map fun p =>
          .Array [.BulkString p.1, streamToResp p.2]))
      else .ok st .NullArray

/-- The post-execution replication hook at the end of `execute_only`: a
propagatable command executed on the leader is appended to the write
queue, growing the offset by its serialized length. -/
def applyReplication (c : Command) (r : EngineOutcome) : EngineOutcome :=
  match r with
  | .ok st v =>
    if c.forReplication then
      match st.replicationRole with
      | .Writer w =>
        match w.pushWriteCommand c with
        | some w' => .ok { st with replicationRole := .Writer w' } v
        | none => .panicked "into-resp-unimplemented"
      | .Reader _ _ => .ok st v
    else .ok st v
  | other => other

mutual

/-- `Engine::execute_only` (`src/engine.rs` lines 305-668).  `rc` is the
`request_count` connection id (`none` on the follower's replication
path), `currentOffset` the connection's committed byte counter.  `fuel`
strictly decreases on every call (only `EXEC` recurses); `.unmodeled`
marks fuel exhaustion and the command variants the source `match` has no
arm for. -/
def executeOnly : Nat → EngineEnv → Command → Option Nat → Nat → EngineState →
    EngineOutcome
  | 0, _, _, _, _, _ => .unmodeled "out-of-fuel"
  | fuel + 1, env, c, rc, currentOffset, st =>
    applyReplication c
      (match c with
       | .Ping => .ok st (.SimpleString "PONG")
       | .Echo arg => .ok st (.BulkString arg)
       | .Set key value expiry =>
         match Database.set env.nowMs key value expiry st.db with
         | (db', .ok _) => .ok { st with db := db' } (.SimpleString "OK")
         | (db', .error e) => .ok { st with db := db' } (.SimpleError e)
       | .Get key =>
         match Database.get env.nowMs key st.db with
         | .ok (some v) => .ok st (.BulkString v)
         | .ok none => .ok st .NullBulkString
         | .error e => .ok st (.SimpleError e)
       | .Lrange key start fin =>
         match Database.getListLrange key start fin st.db with
         | .ok arr => .ok st (.Array (arr.map .BulkString))
         | .error e => .ok st (.SimpleError e)
       | .Llen key =>
         match Database.listLength key st.db with
         | .ok n => .ok st (.Integer n)
         | .error e => .ok st (.SimpleError e)
       | .Rpush key values => Engine.push key values .Back st
       | .Lpush key values => Engine.push key values .Front st
       | .Lpop key => Engine.pop key .Front st
       | .Rpop key => Engine.pop key .Back st
       | .Lpopn key n => Engine.popMulti key n .Front st
       | .Rpopn key n => Engine.popMulti key n .Back st
       | .Blpop keys _ => Engine.blockingPop keys .Front st
       | .Brpop keys _ => Engine.blockingPop keys .Back st
       | .TypeCmd key => .ok st (.SimpleString (Database.getKeyTypeName key st.db))
       | .Xadd key id entries =>
         match Database.streamPush env.nowMs key id entries st.db with
         | (db', .ok finalId) =>
           .ok { st with db := db' } (.BulkString finalId.toDashString)
         | (db', .error e) => .ok { st with db := db' } (.SimpleError e)
       | .Xrange key start fin count => Engine.xrangeRun key start fin count st
       | .Xread pairs count ttl => Engine.xreadRun pairs count ttl st
       | .Incr key =>
         match Database.incr key st.db with
         | (db', .ok n) => .ok { st with db := db' } (.Integer n)
         | (db', .error e) => .ok { st with db := db' } (.SimpleError e)
       | .Multi =>
         match rc with
         | none => .panicked "unwrap-none-request-count"
         | some rcv => .ok (txInsert st rcv []) (.SimpleString "OK")
       | .Exec =>
         match rc with
         | none => .panicked "unwrap-none-request-count"
         | some rcv =>
           match txGet st rcv with
           | some commands =>
             execList fuel env rc currentOffset commands (txRemove st rcv) []
           | none => .ok st (.SimpleError "ERR EXEC without MULTI")
       | .Discard =>
         match rc with
         | none => .panicked "unwrap-none-request-count"
         | some rcv =>
           if txContains st rcv then .ok (txRemove st rcv) (.SimpleString "OK")
           else .ok st (.SimpleError "ERR DISCARD without MULTI")
       | .Info sections =>
         let names := if sections.isEmpty then infoSections else sections
         .ok st (.BulkString
           (names.foldl (fun acc s => acc ++ sectionInfo st.replicationRole s) ""))
       | .Replconf args => Engine.replconfRun args rc currentOffset st
       | .Psync _ _ => .panicked "unreachable"
       | .Wait _ _ => Engine.waitRun st
       | .GetConfig params => Engine.getConfigRun env params st
       | .Keys pattern =>
         match Database.keys pattern st.db with
         | none => .panicked "invalid regex in KEYS pattern"
         | some ks => .ok st (.Array (ks.map .BulkString))
       | .Unknown msg => .ok st (.SimpleError ("Unrecognized command: " ++ msg))
       | .Subscribe _ => .unmodeled "no engine match arm in the source"
       | .Unsubscribe _ => .unmodeled "no engine match arm in the source"
       | .Publish _ _ => .unmodeled "no engine match arm in the source"
       | .Zadd _ _ => .unmodeled "no engine match arm in the source"
       | .Zrank _ _ => .unmodeled "no engine match arm in the source"
       | .Zrange _ _ _ => .unmodeled "no engine match arm in the source"
       | .Zcard _ => .unmodeled "no engine match arm in the source"
       | .Zscore _ _ => .unmodeled "no engine match arm in the source"
       | .Zrem _ _ => .unmodeled "no engine match arm in the source"
       | .Geoadd _ _ => .unmodeled "no engine match arm in the source")

/-- The queued-command loop of the `Command::Exec` arm. -/
def execList : Nat → EngineEnv → Option Nat → Nat → List Command → EngineState →
    List RespValue → EngineOutcome
  | 0, _, _, _, _, _, _ => .unmodeled "out-of-fuel"
  | _ + 1, _, _, _, [], st, acc => .ok st (.Array acc.reverse)
  | fuel + 1, env, rc, currentOffset, c :: cs, st, acc =>
    match executeOnly fuel env c rc currentOffset st with
    | .ok st' v => execList fuel env rc currentOffset cs st' (v :: acc)
    | other => other

end

/-- `Engine::execute` (`src/engine.rs` lines 238-276): the per-connection
dispatcher deciding between transaction queueing and execution.  A
`PSYNC` hands the connection to the replication loop (network-driven,
out of the sequential model). -/
def Engine.execute (fuel : Nat) (env : EngineEnv) (c : Command) (rc : Nat)
    (currentOffset : Nat) (st : EngineState) : EngineOutcome :=
  if ¬c.isExec ∧ ¬c.isDiscard ∧ txContains st rc then
    if c.isMulti then .ok st (.SimpleString "ERR MULTI calls can not be nested")
    else
      match txGet st rc with
      | some q => .ok (txInsert st rc (q ++ [c])) (.SimpleString "QUEUED")
      | none => .panicked "unwrap-none"
  else if c.isPsync then .unmodeled "handle-replica-connection drives the network"
  else executeOnly fuel env c (some rc) currentOffset st

/-- One connection driving a command sequence through `Engine::execute`,
collecting the replies; `none` as soon as an execution does not end in a
reply. -/
def runSession (fuel : Nat) (env : EngineEnv) (rc : Nat) (currentOffset : Nat) :
    List Command → EngineState → Option (EngineState × List RespValue)
  | [], st => some (st, [])
  | c :: cs, st =>
    match Engine.execute fuel env c rc currentOffset st with
    | .ok st' v =>
      (runSession fuel env rc currentOffset cs st').map fun p => (p.1, v :: p.2)
    | _ => none

/-! ## Command parser — `src/command_parser.rs`, `CommandParser::parse`

The parser is modelled with panics explicit: the `SET` arm indexes
`items[1]` and `items[2]` before any length check, so a too-short frame
is an out-of-bounds panic, not an error return.  The `f64` timeout of
`BLPOP`/`BRPOP` is parsed on the plain-decimal fragment (optional sign,
digits, optional fraction); no claim evaluates other float shapes.
In the frozen source the parser produces fixed range ids and no blocking
ttl for `XRANGE`/`XREAD`; they are injected into the `Command` variants
through `.Fixed` and `none`. -/

inductive ParseResult where
  | ok (c : Command)
  | err (e : String)
  | panicked (msg : String)

/-- `RespValue::as_string` / `as_string_owned`. -/
def RespValue.asString : RespValue → Option String
  | .BulkString s => some s
  | .SimpleString s => some s
  | _ => none

/-- `CommandParser::get_strings_exact`. -/
def getStringsExact (values : List RespValue) (n : Nat) (commandName : String) :
    Except String (List String) :=
  if values.length ≠ n then
    .error ("ERR wrong number of arguments for '" ++ commandName ++ "' command")
  else
    match values.mapM RespValue.asString with
    | none => .error ("ERR wrong value type for '" ++ commandName ++ "' command")
    | some out => .ok out

/-- Rust `str::parse::<f64>` on the plain-decimal fragment. -/
def parseF64Rat (cs : List Char) : Option Rat :=
  let core : List Char → Option Rat := fun body =>
    let intPart := body.takeWhile fun c => (charDigit? c).isSome
    let rest := body.dropWhile fun c => (charDigit? c).isSome
    match rest with
    | [] =>
      match parseNatCore intPart 0 with
      | some n => if intPart.isEmpty then none else some (n : Rat)
      | none => none
    | '.' :: fracPart =>
      let frac := fracPart.takeWhile fun c => (charDigit? c).isSome
      let rest₂ := fracPart.dropWhile fun c => (charDigit? c).isSome
      if rest₂ ≠ [] then none
      else if intPart.isEmpty ∧ frac.isEmpty then none
      else
        match parseNatCore intPart 0, parseNatCore frac 0 with
        | some n, some f => some ((n : Rat) + (f : Rat) / ((10 : Rat) ^ frac.length))
        | _, _ => none
    | _ => none
  match cs with
  | '-' :: rest => (core rest).map fun q => -q
  | '+' :: rest => core rest
  | _ => core cs

/-- `CommandParser::stream_entry_id_from_raw`. -/
def streamEntryIdFromRaw (raw : String) : Except String StreamEntryID :=
  if raw = "*" then .ok .Wildcard
  else
    match raw.splitOn "-" with
    | [p0, p1] =>
      match parseUsizeChars p0.data with
      | none => .error "ERR invalid ms in stream entry id"
      | some ms =>
        if p1 = "*" then .ok (.MsOnly ms)
        else
          match parseUsizeChars p1.data with
          | none => .error "ERR invalid seq in stream entry id"
          | some seq => .ok (.Full ⟨ms, seq⟩)
    | _ => .error "ERR invalid stream id"

/-- `CommandParser::stream_range_id_from_raw`. -/
def streamRangeIdFromRaw (raw : String) (defaultSeq : Nat) :
    Except String CompleteStreamEntryID :=
  if raw = "-" then .ok ⟨0, 1⟩
  else if raw = "+" then .ok ⟨u128Max, usizeMax⟩
  else
    match raw.splitOn "-" with
    | [p0] =>
      match parseUsizeChars p0.data with
      | none => .error "ERR wrong value for 'xrange' command"
      | some ms => .ok ⟨ms, defaultSeq⟩
    | [p0, p1] =>
      match parseUsizeChars p0.data, parseUsizeChars p1.data with
      | some ms, some seq => .ok ⟨ms, seq⟩
      | _, _ => .error "ERR wrong value for 'xrange' command"
    | _ => .error "ERR invalid ms in stream entry id"

def chunkPairs : List String → List (String × String)
  | k :: v :: rest => (k, v) :: chunkPairs rest
  | _ => []

def xrangeIdList : List String → Except String (List CompleteStreamEntryID)
  | [] => .ok []
  | raw :: rest =>
    match streamRangeIdFromRaw raw 0 with
    | .error e => .error e
    | .ok id =>
      match xrangeIdList rest with
      | .error e => .error e
      | .ok ids => .ok (id :: ids)

def parseSetArm (items : List RespValue) : ParseResult :=
  match items.get? 1 with
  | none => .panicked "index out of bounds"
  | some it1 =>
    match it1.asString with
    | none => .err "ERR wrong number of arguments for 'set' command"
    | some key =>
      match items.get? 2 with
      | none => .panicked "index out of bounds"
      | some it2 =>
        match it2.asString with
        | none => .err "ERR wrong value for 'set' command"
        | some value =>
          if items.length = 3 then .ok (.Set key value none)
          else if items.length = 5 then
            match items.get? 3, items.get? 4 with
            | some it3, some it4 =>
              match it3.asString with
              | none => .err "ERR wrong expiry type for 'set' command"
              | some expiryKind =>
                match it4.asString with
                | none => .err "ERR wrong expiry value for 'set' command"
                | some expiryValueStr =>
                  match parseUsizeChars expiryValueStr.data with
                  | none => .err "ERR wrong expiry value for 'set' command"
                  | some expiryValue =>
                    if strToLower expiryKind = "ex" then
                      .ok (.Set key value (some (expiryValue * 1000)))
                    else if strToLower expiryKind = "px" then
                      .ok (.Set key value (some expiryValue))
                    else .err "ERR wrong expiry type for 'set' command"
            | _, _ => .panicked "index out of bounds"
          else .err "ERR wrong number of arguments for 'set' command"

def parsePushArm (items : List RespValue) (name : String)
    (mk : String → List String → Command) : ParseResult :=
  if items.length ≤ 2 then
    .err ("ERR wrong number of arguments for '" ++ name ++ "' command")
  else
    match items.get? 1 with
    | none => .panicked "index out of bounds"
    | some it1 =>
      match it1.asString with
      | none => .err ("ERR wrong key for '" ++ name ++ "' command")
      | some key =>
        match (items.drop 2).mapM RespValue.asString with
        | none => .err ("ERR wrong value for '" ++ name ++ "' command")
        | some values => .ok (mk key values)

def parseBlockingPopArm (items : List RespValue) (name : String)
    (mk : List String → Rat → Command) : ParseResult :=
  if items.length < 3 then
    .err ("ERR wrong number of arguments for '" ++ name ++ "' command")
  else
    match getStringsExact items items.length name with
    | .error e => .err e
    | .ok strItems =>
      match strItems.getLast? with
      | none => .panicked "unwrap-none"
      | some timeoutStr =>
        match parseF64Rat timeoutStr.data with
        | none => .err ("ERR wrong expiry value for '" ++ name ++ "' command")
        | some t =>
          let timeoutSecs := if t = 0 then (86400 : Rat) else t
          .ok (mk (strItems.dropLast.drop 1) timeoutSecs)

def parseXaddArm (items : List RespValue) : ParseResult :=
  if items.length < 5 then .err "ERR wrong number of arguments for 'xadd' command"
  else
    match getStringsExact items items.length "xadd" with
    | .error e => .err e
    | .ok strItems =>
      match strItems with
      | _ :: key :: idRaw :: kvItems =>
        if kvItems.length % 2 ≠ 0 then
          .err "ERR wrong number of arguments for 'xadd' command"
        else
          match streamEntryIdFromRaw idRaw with
          | .error e => .err e
          | .ok id => .ok (.Xadd key id (chunkPairs kvItems))
      | _ => .panicked "unreachable"

def parseXrangeArm (items : List RespValue) : ParseResult :=
  if items.length = 4 ∨ items.length = 6 then
    match getStringsExact items items.length "xrange" with
    | .error e => .err e
    | .ok strItems =>
      match strItems with
      | _ :: key :: s0 :: s1 :: restArgs =>
        match streamRangeIdFromRaw s0 0 with
        | .error e => .err e
        | .ok start =>
          match streamRangeIdFromRaw s1 usizeMax with
          | .error e => .err e
          | .ok fin =>
            if items.length = 6 then
              match restArgs with
              | [c0, c1] =>
                if strToLower c0 = "COUNT" then
                  match parseUsizeChars c1.data with
                  | none => .err "ERR wrong value for 'xrange' command"
                  | some count => .ok (.Xrange key (.Fixed start) (.Fixed fin) count)
                else .err "ERR wrong arguments for 'xrange' command"
              | _ => .panicked "unreachable"
            else .ok (.Xrange key (.Fixed start) (.Fixed fin) usizeMax)
      | _ => .panicked "unreachable"
  else .err "ERR wrong number of arguments for 'xrange' command"

def parseXreadArm (items : List RespValue) : ParseResult :=
  if items.length < 4 then .err "ERR wrong number of arguments for 'xread' command"
  else
    match getStringsExact items items.length "xread" with
    | .error e => .err e
    | .ok strItems =>
      let rest₀ := strItems.drop 1
      let withCount : Option (Nat × List String) :=
        match rest₀ with
        | c0 :: countRaw :: rest₁ =>
          if strToLower c0 = "count" then
            (parseUsizeChars countRaw.data).map fun n => (n, rest₁)
          else some (usizeMax, rest₀)
        | _ => some (usizeMax, rest₀)
      match withCount with
      | none => .err "ERR wrong value for 'xread' command"
      | some (count, rest₁) =>
        match rest₁ with
        | streamsWord :: rest₂ =>
          if strToLower streamsWord ≠ "streams" then
            .err "ERR missing 'STREAMS' from 'xread' command"
          else if rest₂.length % 2 ≠ 0 then
            .err "ERR wrong number of arguments for 'xread' command"
          else
            let keyIdLen := rest₂.length / 2
            let keys := rest₂.take keyIdLen
            match xrangeIdList (rest₂.drop keyIdLen) with
            | .error e => .err e
            | .ok ids =>
              .ok (.Xread (keys.zip (ids.map RangeStreamEntryID.Fixed)) count none)
        | [] => .err "ERR missing 'STREAMS' from 'xread' command"
      -- `count` parsing failure uses the `to_number!` message shape

def parseExact2 (items : List RespValue) (name : String)
    (mk : String → Command) : ParseResult :=
  match getStringsExact items 2 name with
  | .error e => .err e
  | .ok strItems =>
    match strItems with
    | [_, key] => .ok (mk key)
    | _ => .panicked "unreachable"

def parsePopArm (items : List RespValue) (name : String)
    (mkOne : String → Command) (mkN : String → Nat → Command) : ParseResult :=
  if items.length = 2 then parseExact2 items name mkOne
  else if items.length = 3 then
    match getStringsExact items 3 name with
    | .error e => .err e
    | .ok strItems =>
      match strItems with
      | [_, key, nRaw] =>
        match parseUsizeChars nRaw.data with
        | none => .err ("ERR wrong value for '" ++ name ++ "' command")
        | some n => .ok (mkN key n)
      | _ => .panicked "unreachable"
  else .err ("ERR wrong number of arguments for '" ++ name ++ "' command")

/-- `CommandParser::parse` (`src/command_parser.rs` lines 20-306). -/
def CommandParser.parse (input : RespValue) : ParseResult :=
  match input with
  | .Array items =>
    if items.isEmpty then .err "ERR missing command"
    else
      match items.head?.bind RespValue.asString with
      | none => .err "ERR wrong command type"
      | some name =>
        let lower := strToLower name
        if lower = "ping" then
          if items.length ≠ 1 then .err "ERR wrong number of arguments for 'ping' command"
          else .ok .Ping
        else if lower = "echo" then parseExact2 items "echo" Command.Echo
        else if lower = "get" then parseExact2 items "get" Command.Get
        else if lower = "set" then parseSetArm items
        else if lower = "rpush" then parsePushArm items "rpush" Command.Rpush
        else if lower = "lpush" then parsePushArm items "lpush" Command.Lpush
        else if lower = "lrange" then
          match getStringsExact items 4 "lrange" with
          | .error e => .err e
          | .ok strItems =>
            match strItems with
            | [_, key, s2, s3] =>
              match parseI64Chars s2.data with
              | none => .err "ERR wrong value for 'lrange' command"
              | some start =>
                match parseI64Chars s3.data with
                | none => .err "ERR wrong value for 'lrange' command"
                | some fin => .ok (.Lrange key start fin)
            | _ => .panicked "unreachable"
        else if lower = "llen" then parseExact2 items "llen" Command.Llen
        else if lower = "lpop" then parsePopArm items "lpop" Command.Lpop Command.Lpopn
        else if lower = "rpop" then parsePopArm items "rpop" Command.Rpop Command.Rpopn
        else if lower = "blpop" then parseBlockingPopArm items "blpop" Command.Blpop
        else if lower = "brpop" then parseBlockingPopArm items "brpop" Command.Brpop
        else if lower = "type" then parseExact2 items "type" Command.TypeCmd
        else if lower = "xadd" then parseXaddArm items
        else if lower = "xrange" then parseXrangeArm items
        else if lower = "xread" then parseXreadArm items
        else .err ("ERR unknown command '" ++ lower ++ "'")
  | _ => .err "ERR unknown command 'asdf'"

/-! ## Snapshot reader — `src/rdb.rs`, `RdbFile::read`

Bytes are `Nat` values below 256.  The `RecordingReader` is a cursor over
the byte list plus the recorded `memory` (everything consumed through
`read_exact`; `read_exact_no_memory` — the final CRC — is not recorded,
and `peek` looks ahead without consuming).  I/O errors (reads past EOF)
are `err`, all `unimplemented!`/`assert!`/`unwrap` panics are
`panicked`.  Byte strings are decoded char-per-byte (the ASCII fragment
of `String::from_utf8`). -/

structure RdbReader where
  rest : List Nat
  memory : List Nat

inductive RdbValue where
  | Str (s : String)

inductive VariableLenString where
  | Str (s : String)
  | I8 (v : Int)
  | I16 (v : Int)
  | I32 (v : Int)

structure RdbContent where
  version : Option Nat
  auxFields : List (String × VariableLenString)
  dbSelector : Option Nat
  hashTableSize : Option Nat
  expiryHashTableSize : Option Nat
  data : List (Nat × List (String × (Option Nat × RdbValue)))

def RdbContent.empty : RdbContent :=
  { version := none, auxFields := [], dbSelector := none, hashTableSize := none,
    expiryHashTableSize := none, data := [] }

inductive RdbStep (α : Type) where
  | ok (r : RdbReader) (v : α)
  | err (msg : String)
  | panicked (msg : String)

inductive RdbOutcome where
  | ok (content : RdbContent)
  | err (msg : String)
  | panicked (msg : String)

/-- `RecordingReader::read_exact` (records into `memory`). -/
def rdbReadExact (r : RdbReader) (n : Nat) : RdbStep (List Nat) :=
  if r.rest.length < n then .err "failed to fill whole buffer"
  else .ok { rest := r.rest.drop n, memory := r.memory ++ r.rest.take n } (r.rest.take n)

/-- `RecordingReader::read_exact_no_memory`. -/
def rdbReadExactNoMemory (r : RdbReader) (n : Nat) : RdbStep (List Nat) :=
  if r.rest.length < n then .err "failed to fill whole buffer"
  else .ok { rest := r.rest.drop n, memory := r.memory } (r.rest.take n)

/-- `RecordingReader::peek`. -/
def rdbPeek (r : RdbReader) : Except String Nat :=
  match r.rest.head? with
  | none => .error "failed to fill whole buffer"
  | some b => .ok b

def bytesToString (bs : List Nat) : String :=
  String.mk (bs.map Char.ofNat)

def leU32 (b : List Nat) : Nat :=
  match b with
  | [b0, b1, b2, b3] => b0 + b1 * 256 + b2 * 65536 + b3 * 16777216
  | _ => 0

def leU64 (b : List Nat) : Nat :=
  match b with
  | [b0, b1, b2, b3, b4, b5, b6, b7] =>
    b0 + b1 * 2 ^ 8 + b2 * 2 ^ 16 + b3 * 2 ^ 24 + b4 * 2 ^ 32 + b5 * 2 ^ 40 +
      b6 * 2 ^ 48 + b7 * 2 ^ 56
  | _ => 0

/-- Two's-complement reading of `k` little-endian bytes as a signed int. -/
def leSigned (b : List Nat) : Int :=
  let v := leU64 (b ++ List.replicate (8 - b.length) 0)
  let bits := 8 * b.length
  if v < 2 ^ (bits - 1) then (v : Int) else (v : Int) - 2 ^ bits

/-- `v as usize` for a possibly negative sign-extended value (wrapping). -/
def asUsize (v : Int) : Nat :=
  (if v < 0 then v + 2 ^ 64 else v).toNat

/-- CRC-64/REDIS (reflected, polynomial `0xad93d23594c935a9`, zero init
and xorout), right-shift formulation with the bit-reversed polynomial. -/
def crc64Bit (c : Nat) : Nat :=
  if c % 2 = 1 then (c / 2) ^^^ 0x95ac9329ac4bc9b5 else c / 2

def crc64Redis (bytes : List Nat) : Nat :=
  bytes.foldl (fun c b => crc64Bit^[8] (c ^^^ b % 256)) 0

/-- `RdbFile::read_variable_len_str`.  Note the source's `0b10` branch
reads 4 bytes but converts `buf[0..3]` (three bytes) with
`try_into::<[u8;4]>`, which always fails and propagates an error. -/
def readVariableLenStr (r : RdbReader) : RdbStep VariableLenString :=
  match rdbReadExact r 1 with
  | .err e => .err e
  | .panicked m => .panicked m
  | .ok r₁ b =>
    let b0 := (b.headD 0) % 256
    let leadBits := b0 / 64
    if leadBits = 0 then
      match rdbReadExact r₁ (b0 % 64) with
      | .err e => .err e
      | .panicked m => .panicked m
      | .ok r₂ bs => .ok r₂ (.Str (bytesToString bs))
    else if leadBits = 1 then
      match rdbReadExact r₁ 1 with
      | .err e => .err e
      | .panicked m => .panicked m
      | .ok r₂ b₂ =>
        let len := (b0 % 64) * 256 + (b₂.headD 0) % 256
        match rdbReadExact r₂ len with
        | .err e => .err e
        | .panicked m => .panicked m
        | .ok r₃ bs => .ok r₃ (.Str (bytesToString bs))
    else if leadBits = 2 then
      match rdbReadExact r₁ 4 with
      | .err e => .err e
      | .panicked m => .panicked m
      | .ok _ _ => .err "could not convert slice to array"
    else
      match b0 % 64 with
      | 0 =>
        match rdbReadExact r₁ 1 with
        | .err e => .err e
        | .panicked m => .panicked m
        | .ok r₂ bs => .ok r₂ (.I8 (leSigned bs))
      | 1 =>
        match rdbReadExact r₁ 2 with
        | .err e => .err e
        | .panicked m => .panicked m
        | .ok r₂ bs => .ok r₂ (.I16 (leSigned bs))
      | 2 =>
        match rdbReadExact r₁ 4 with
        | .err e => .err e
        | .panicked m => .panicked m
        | .ok r₂ bs => .ok r₂ (.I32 (leSigned bs))
      | 3 => .panicked "LZF encoded strings are not yet implemented"
      | _ => .panicked "Unexpected last 6 bit for 0b11 lenght type"

/-- `RdbFile::read_db_section`: `assert!(content.data.contains_key(&db_idx))`
fires on the first database selector of any file, because `data` only
gains keys through the insert that follows the assert. -/
def readDbSection (r : RdbReader) (content : RdbContent) :
    RdbStep RdbContent :=
  match readVariableLenStr r with
  | .err e => .err e
  | .panicked m => .panicked m
  | .ok r₁ v =>
    match v with
    | .I8 raw =>
      let dbIdx := asUsize raw
      if content.data.any (fun p => p.1 = dbIdx) then
        .ok r₁ { content with
          data := (dbIdx, []) :: content.data.filter fun p => p.1 ≠ dbIdx,
          dbSelector := some dbIdx }
      else .panicked "assertion failed: content.data.contains_key(&db_idx)"
    | _ => .panicked "Unsupported db selector"

def readResizeDb (r : RdbReader) (content : RdbContent) : RdbStep RdbContent :=
  match readVariableLenStr r with
  | .err e => .err e
  | .panicked m => .panicked m
  | .ok r₁ v =>
    match v with
    | .Str _ => .panicked "Unexpected type for hash table size"
    | .I8 n | .I16 n | .I32 n =>
      let content₁ := { content with hashTableSize := some (asUsize n) }
      match readVariableLenStr r₁ with
      | .err e => .err e
      | .panicked m => .panicked m
      | .ok r₂ v₂ =>
        match v₂ with
        | .Str _ => .panicked "Unexpected type for expiry hash table size"
        | .I8 n₂ | .I16 n₂ | .I32 n₂ =>
          .ok r₂ { content₁ with expiryHashTableSize := some (asUsize n₂) }

/-- `RdbContent::current_db_mut` (two `unwrap`s). -/
def currentDbInsert (content : RdbContent) (key : String)
    (value : Option Nat × RdbValue) : Option RdbContent :=
  match content.dbSelector with
  | none => none
  | some i =>
    match content.data.find? fun p => p.1 = i with
    | none => none
    | some (_, m) =>
      some { content with
        data := (i, (key, value) :: m.filter fun p => p.1 ≠ key) ::
          content.data.filter fun p => p.1 ≠ i }

/-- `RdbFile::read_key_value`. -/
def readKeyValue (r : RdbReader) (content : RdbContent) (expiry : Option Nat) :
    RdbStep RdbContent :=
  match rdbReadExact r 1 with
  | .err e => .err e
  | .panicked m => .panicked m
  | .ok r₁ tb =>
    let valueType := (tb.headD 0) % 256
    match readVariableLenStr r₁ with
    | .err e => .err e
    | .panicked m => .panicked m
    | .ok r₂ keyV =>
      match keyV with
      | .Str key =>
        if valueType = 0 then
          match readVariableLenStr r₂ with
          | .err e => .err e
          | .panicked m => .panicked m
          | .ok r₃ valV =>
            match valV with
            | .Str s =>
              match currentDbInsert content key (expiry, .Str s) with
              | none => .panicked "unwrap-none in current_db_mut"
              | some content' => .ok r₃ content'
            | _ => .panicked "Unexpected bytes for string value"
        else if valueType ∈ [1, 2, 3, 4, 9, 10, 11, 12, 13, 14] then
          .panicked "unimplemented value encoding"
        else .panicked "Invalid value type"
      | _ => .panicked "Invalid key type for key-value pairs"

mutual

/-- The section loop of `RdbFile::read`.  The fall-through arm reads an
optional expiry header and a key-value pair and then hits the source's
`unimplemented!()`: the reader panics on EVERY file containing a
key-value pair. -/
def rdbReadLoop : Nat → RdbReader → RdbContent → RdbOutcome
  | 0, _, _ => .err "out-of-fuel"
  | fuel + 1, r, content =>
    match rdbPeek r with
    | .error e => .err e
    | .ok header =>
      if header = 0xFF then
        match rdbReadExact r 1 with
        | .err e => .err e
        | .panicked m => .panicked m
        | .ok r₁ _ =>
          match rdbReadExactNoMemory r₁ 8 with
          | .err e => .err e
          | .panicked m => .panicked m
          | .ok r₂ crcBytes =>
            if leU64 crcBytes = crc64Redis r₂.memory then .ok content
            else .err "Checksum error"
      else if header = 0xFE then
        match rdbReadExact r 1 with
        | .err e => .err e
        | .panicked m => .panicked m
        | .ok r₁ _ =>
          match readDbSection r₁ content with
          | .err e => .err e
          | .panicked m => .panicked m
          | .ok r₂ content' => rdbReadLoop fuel r₂ content'
      else if header = 0xFB then
        match rdbReadExact r 1 with
        | .err e => .err e
        | .panicked m => .panicked m
        | .ok r₁ _ =>
          match readResizeDb r₁ content with
          | .err e => .err e
          | .panicked m => .panicked m
          | .ok r₂ content' => rdbReadLoop fuel r₂ content'
      else if header = 0xFA then
        match rdbReadExact r 1 with
        | .err e => .err e
        | .panicked m => .panicked m
        | .ok r₁ _ =>
          match rdbAuxLoop fuel r₁ content with
          | .err e => .err e
          | .panicked m => .panicked m
          | .ok r₂ content' => rdbReadLoop fuel r₂ content'
      else
        let expiryStep : RdbStep (Option Nat) :=
          if header = 0xFD then
            match rdbReadExact r 1 with
            | .err e => .err e
            | .panicked m => .panicked m
            | .ok r₁ _ =>
              match rdbReadExact r₁ 4 with
              | .err e => .err e
              | .panicked m => .panicked m
              | .ok r₂ bs => .ok r₂ (some (leU32 bs * 1000))
          else if header = 0xFC then
            match rdbReadExact r 1 with
            | .err e => .err e
            | .panicked m => .panicked m
            | .ok r₁ _ =>
              match rdbReadExact r₁ 8 with
              | .err e => .err e
              | .panicked m => .panicked m
              | .ok r₂ bs => .ok r₂ (some (leU64 bs))
          else .ok r none
        match expiryStep with
        | .err e => .err e
        | .panicked m => .panicked m
        | .ok r₁ expiryMs =>
          match readKeyValue r₁ content expiryMs with
          | .err e => .err e
          | .panicked m => .panicked m
          | .ok _ _ => .panicked "unimplemented after read_key_value"

/-- `RdbFile::read_aux_section`'s loop. -/
def rdbAuxLoop : Nat → RdbReader → RdbContent → RdbStep RdbContent
  | 0, _, _ => .err "out-of-fuel"
  | fuel + 1, r, content =>
    match rdbPeek r with
    | .error e => .err e
    | .ok b =>
      if b ≥ 0xFA then .ok r content
      else
        match readVariableLenStr r with
        | .err e => .err e
        | .panicked m => .panicked m
        | .ok r₁ keyV =>
          match keyV with
          | .Str key =>
            match readVariableLenStr r₁ with
            | .err e => .err e
            | .panicked m => .panicked m
            | .ok r₂ v =>
              rdbAuxLoop fuel r₂ { content with auxFields := content.auxFields ++ [(key, v)] }
          | _ => .panicked "Expected string for aux key"

end

/-- `RdbFile::read` (`src/rdb.rs` lines 120-176): magic, version, then the
section loop. -/
def rdbRead (bytes : List Nat) : RdbOutcome :=
  let r₀ : RdbReader := { rest := bytes, memory := [] }
  match rdbReadExact r₀ 5 with
  | .err e => .err e
  | .panicked m => .panicked m
  | .ok r₁ magic =>
    if magic ≠ [0x52, 0x45, 0x44, 0x49, 0x53] then
      .err "Missing magic string at beginning (REDIS)"
    else
      match rdbReadExact r₁ 4 with
      | .err e => .err e
      | .panicked m => .panicked m
      | .ok r₂ versionBytes =>
        match parseUsizeChars (versionBytes.map Char.ofNat) with
        | none => .err "invalid version digits"
        | some version =>
          if version < 65536 then
            rdbReadLoop (bytes.length + 2) r₂
              { RdbContent.empty with version := some version }
          else .err "number too large to fit in target type"

/-- Fixtures for concrete evaluations. -/
def env0 : EngineEnv := { nowMs := 0, dir := "", dbfilename := "" }

def readerState (db : Database) : EngineState :=
  { db := db, transactionStore := [], replicationRole := .Reader "" 0 }

/-- The master replication offset of a role (`0` on a follower, which has
none). -/
def offsetOf : ReplicationRole → Nat
  | .Writer w => w.offset
  | .Reader _ _ => 0

/-- `len(serialize(to_wire(C)))`: the byte length a propagatable command
contributes to the replication offset. -/
def respWireLen (c : Command) : Nat :=
  match c.intoResp with
  | some r => r.serializeChars.length
  | none => 0

/-- A fresh leader role: offset 0, nothing queued. -/
def writer0 : WriterRole :=
  { replid := "", offset := 0, clients := [], writeQueue := [] }

/-- A leader with an empty store and no open transaction. -/
def writerState : EngineState :=
  { db := [], transactionStore := [], replicationRole := .Writer writer0 }

/-- A leader holding one queued `SET a 1` in connection 1's transaction. -/
def txSetState : EngineState :=
  { db := [], transactionStore := [(1, [.Set "a" "1" none])],
    replicationRole := .Writer writer0 }

/-- The engine state after `SET a 1` runs on `writerState` (equally:
after connection 1's `EXEC` drains the queued `SET a 1` of
`txSetState`): the key stored, the transaction gone, the leader offset
advanced by the 27 wire bytes of the propagated `SET`. -/
def writer27 : WriterRole :=
  { writer0 with offset := 27, writeQueue := [.Set "a" "1" none] }

def setOutState : EngineState :=
  { db := [("a", .Value "1" none)], transactionStore := [],
    replicationRole := .Writer writer27 }

/-- A follower holding a string under `k` and a queued `BLPOP k` in
connection 1's transaction. -/
def blpopTxState : EngineState :=
  { db := [("k", .Value "v" none)], transactionStore := [(1, [.Blpop ["k"] 1])],
    replicationRole := .Reader "" 0 }

/-- `blpopTxState` with the transaction drained (the store untouched by
the failing `BLPOP`). -/
def blpopErrState : EngineState :=
  { db := [("k", .Value "v" none)], transactionStore := [],
    replicationRole := .Reader "" 0 }

/-- A sequence of `XADD`s against one stream's entry list: each step
resolves its id spec at its own `now_ms` and appends on success; a
rejected id leaves the entries unchanged (`stream_push`'s error path
never touches the entry list).  Returns the final entries and the ids the
successful calls returned, in order. -/
def xaddRun : List (Nat × StreamEntryID × List (String × String)) →
    List StreamValue → List StreamValue × List CompleteStreamEntryID
  | [], stream => (stream, [])
  | (now, id, kvs) :: rest, stream =>
    match Database.resolveStreamEntryId now id stream with
    | .error _ => xaddRun rest stream
    | .ok rid =>
      let (stream', ids) := xaddRun rest (stream ++ [⟨rid, kvs⟩])
      (stream', rid :: ids)

/-- The strings for which the reader inverts the serializer: no embedded
newline (the reader is line-based) and no leading or trailing whitespace
(the reader trims every line). -/
def cleanStrB (cs : List Char) : Bool :=
  decide ('\n' ∉ cs) && decide (cs.dropWhile isWsChar = cs) &&
    decide (cs.reverse.dropWhile isWsChar = cs.reverse)

mutual

/-- The well-formed wire values the reader of `src/network.rs` can
reproduce: `SimpleString`/`BulkString` with clean payloads, `Integer`
within the `i64` range (every Rust-representable integer), and arrays
of such.  `SimpleError`, the null values and `BulkBytes` are excluded:
the reader has no branch for them. -/
def RespValue.clean : RespValue → Bool
  | .SimpleString s => cleanStrB s.data
  | .BulkString s => cleanStrB s.data
  | .Integer n => decide (-i64UpperBound ≤ n ∧ n < i64UpperBound)
  | .Array items => cleanRespList items
  | _ => false

def cleanRespList : List RespValue → Bool
  | [] => true
  | v :: vs => v.clean && cleanRespList vs

end

mutual

/-- Number of `read_resp_value` calls needed to parse `v`. -/
def sizeV : RespValue → Nat
  | .Array items => 1 + sizeL items
  | _ => 1

def sizeL : List RespValue → Nat
  | [] => 0
  | v :: vs => 1 + sizeV v + sizeL vs

end

/-! ## Round-trip infrastructure (claim C1)

Helper lemmas about decimal digits, `read_line` and `trim`. -/

theorem charDigit?_digitChar {k : Nat} (h : k < 10) :
    charDigit? (Char.ofNat (48 + k)) = some k := by
  interval_cases k <;> decide

theorem natDigitsAux_irrel : ∀ f f' n, n < f → n < f' →
    natDigitsAux f n = natDigitsAux f' n := by
  intro f
  induction f with
  | zero => intro f' n h; omega
  | succ f ih =>
    intro f' n hf hf'
    cases f' with
    | zero => omega
    | succ f' =>
      simp only [natDigitsAux]
      by_cases h : n < 10
      · simp [h]
      · rw [if_neg h, if_neg h]
        have hdiv : n / 10 < n := Nat.div_lt_self (by omega) (by omega)
        rw [ih f' (n / 10) (by omega) (by omega)]

/-- The recursive unfolding of `natDigits`, fuel-free. -/
theorem natDigits_eq (n : Nat) : natDigits n =
    if _h : n < 10 then [Char.ofNat (48 + n)]
    else natDigits (n / 10) ++ [Char.ofNat (48 + n % 10)] := by
  have hstep : natDigits n = if n < 10 then [Char.ofNat (48 + n)]
      else natDigitsAux n (n / 10) ++ [Char.ofNat (48 + n % 10)] := rfl
  by_cases h : n < 10
  · rw [dif_pos h, hstep, if_pos h]
  · rw [dif_neg h, hstep, if_neg h]
    have hdiv : n / 10 < n := Nat.div_lt_self (by omega) (by omega)
    rw [natDigitsAux_irrel n (n / 10 + 1) (n / 10) (by omega) (by omega)]
    rfl

theorem natDigits_mem_toNat : ∀ {n : Nat}, ∀ c ∈ natDigits n, 48 ≤ c.toNat ∧ c.toNat ≤ 57 := by
  intro n
  induction n using Nat.strong_induction_on with
  | _ n ih =>
    intro c hc
    rw [natDigits_eq] at hc
    by_cases h : n < 10
    · simp only [h, dif_pos] at hc
      simp only [List.mem_singleton] at hc
      subst hc
      interval_cases n <;> simp_all
    · simp only [h, dif_neg, not_false_iff, List.mem_append, List.mem_singleton] at hc
      rcases hc with hc | hc
      · exact ih (n / 10) (Nat.div_lt_self (by omega) (by omega)) c hc
      · subst hc
        have h10 : n % 10 < 10 := Nat.mod_lt _ (by omega)
        interval_cases h' : n % 10 <;> simp_all

theorem natDigits_ne_nil (n : Nat) : natDigits n ≠ [] := by
  rw [natDigits_eq]
  by_cases h : n < 10 <;> simp [h]

theorem isWsChar_eq_false_of_ge {c : Char} (h : 43 ≤ c.toNat) : isWsChar c = false := by
  have h1 : c ≠ ' ' := by rintro rfl; exact absurd h (by decide)
  have h2 : c ≠ '\t' := by rintro rfl; exact absurd h (by decide)
  have h3 : c ≠ '\n' := by rintro rfl; exact absurd h (by decide)
  have h4 : c ≠ '\r' := by rintro rfl; exact absurd h (by decide)
  have h5 : c ≠ '\x0b' := by rintro rfl; exact absurd h (by decide)
  have h6 : c ≠ '\x0c' := by rintro rfl; exact absurd h (by decide)
  simp [isWsChar, h1, h2, h3, h4, h5, h6]

theorem dropWhile_eq_self_of_forall {p : Char → Bool} :
    ∀ {l : List Char}, (∀ c ∈ l, p c = false) → l.dropWhile p = l := by
  intro l h
  cases l with
  | nil => rfl
  | cons c cs => simp [List.dropWhile_cons, h c (by simp)]

theorem parseNatCore_append (xs ys : List Char) (acc : Nat) :
    parseNatCore (xs ++ ys) acc =
      match parseNatCore xs acc with
      | none => none
      | some m => parseNatCore ys m := by
  induction xs generalizing acc with
  | nil => simp [parseNatCore]
  | cons c cs ih =>
    simp only [List.cons_append, parseNatCore]
    cases charDigit? c with
    | none => rfl
    | some d => exact ih _

theorem parseNatCore_natDigits (n acc : Nat) :
    parseNatCore (natDigits n) acc = some (acc * 10 ^ (natDigits n).length + n) := by
  induction n using Nat.strong_induction_on generalizing acc with
  | _ n ih =>
    rw [natDigits_eq]
    by_cases h : n < 10
    · simp only [h, dif_pos]
      simp [parseNatCore, charDigit?_digitChar h]
    · simp only [h, dif_neg, not_false_iff]
      rw [parseNatCore_append]
      rw [ih (n / 10) (Nat.div_lt_self (by omega) (by omega)) acc]
      have h10 : n % 10 < 10 := Nat.mod_lt _ (by omega)
      simp only [parseNatCore, charDigit?_digitChar h10, List.length_append,
        List.length_singleton]
      congr 1
      have : 10 ^ ((natDigits (n / 10)).length + 1) = 10 ^ (natDigits (n / 10)).length * 10 := by
        ring
      rw [this]
      have := Nat.div_add_mod n 10
      ring_nf
      omega

theorem parseUsizeChars_natDigits (n : Nat) : parseUsizeChars (natDigits n) = some n := by
  obtain ⟨d, ds, hd⟩ : ∃ d ds, natDigits n = d :: ds := by
    cases h : natDigits n with
    | nil => exact absurd h (natDigits_ne_nil n)
    | cons d ds => exact ⟨d, ds, rfl⟩
  have hdm : 48 ≤ d.toNat ∧ d.toNat ≤ 57 := natDigits_mem_toNat d (by rw [hd]; simp)
  have hplus : d ≠ '+' := by rintro rfl; exact absurd hdm.1 (by decide)
  rw [hd, parseUsizeChars]
  simp only [hplus, if_false]
  rw [← hd, parseNatCore_natDigits]
  simp

theorem intDigits_mem_toNat {n : Int} : ∀ c ∈ intDigits n, 45 ≤ c.toNat ∧ c.toNat ≤ 57 := by
  intro c hc
  rw [intDigits] at hc
  by_cases h : n < 0
  · simp only [h, if_pos, List.mem_cons] at hc
    rcases hc with hc | hc
    · subst hc; constructor <;> decide
    · have := natDigits_mem_toNat c hc; omega
  · simp only [h, if_neg, not_false_iff] at hc
    have := natDigits_mem_toNat c hc; omega

theorem parseI64Chars_intDigits {n : Int} (h1 : -i64UpperBound ≤ n) (h2 : n < i64UpperBound) :
    parseI64Chars (intDigits n) = some n := by
  rw [intDigits]
  by_cases h : n < 0
  · simp only [h, if_pos]
    rw [parseI64Chars]
    simp only [if_pos rfl]
    have hne : natDigits n.natAbs ≠ [] := natDigits_ne_nil _
    simp only [hne, if_neg, not_false_iff]
    rw [parseNatCore_natDigits]
    simp only [Nat.zero_mul, Nat.zero_add]
    have hb : (n.natAbs : Int) ≤ i64UpperBound := by omega
    simp only [hb, if_pos]
    congr 1
    omega
  · simp only [h, if_neg, not_false_iff]
    obtain ⟨d, ds, hd⟩ : ∃ d ds, natDigits n.toNat = d :: ds := by
      cases hh : natDigits n.toNat with
      | nil => exact absurd hh (natDigits_ne_nil _)
      | cons d ds => exact ⟨d, ds, rfl⟩
    have hdm : 48 ≤ d.toNat ∧ d.toNat ≤ 57 := natDigits_mem_toNat d (by rw [hd]; simp)
    have hminus : d ≠ '-' := by rintro rfl; exact absurd hdm.1 (by decide)
    have hplus : d ≠ '+' := by rintro rfl; exact absurd hdm.1 (by decide)
    rw [hd, parseI64Chars]
    simp only [hminus, hplus, if_false]
    rw [← hd, parseNatCore_natDigits]
    simp only [Nat.zero_mul, Nat.zero_add]
    have hb : (n.toNat : Int) < i64UpperBound := by omega
    simp only [hb, if_pos]
    congr 1
    omega

theorem readLine_append {cs : List Char} (rest : List Char) (h : '\n' ∉ cs) :
    readLine (cs ++ '\n' :: rest) = (cs ++ ['\n'], rest) := by
  induction cs with
  | nil => simp [readLine]
  | cons c cs ih =>
    have hc : c ≠ '\n' := by intro e; exact h (by simp [e])
    have hcs : '\n' ∉ cs := by intro e; exact h (by simp [e])
    simp [readLine, hc, ih hcs]

theorem trimChars_line {cs : List Char}
    (hf : cs.dropWhile isWsChar = cs) (hb : cs.reverse.dropWhile isWsChar = cs.reverse) :
    trimChars (cs ++ crlf) = cs := by
  unfold trimChars dropWsFront dropWsBack crlf
  cases cs with
  | nil => rfl
  | cons c cs =>
    have hc : isWsChar c = false := by
      by_contra hcc
      rw [List.dropWhile_cons] at hf
      simp only [Bool.not_eq_false] at hcc
      rw [if_pos hcc] at hf
      have := congrArg List.length hf
      have hlen := (List.dropWhile_sublist (l := cs) (p := isWsChar)).length_le
      simp at this
      omega
    rw [List.cons_append, List.dropWhile_cons, if_neg (by simp [hc])]
    have : (c :: (cs ++ ['\r', '\n'])).reverse = '\n' :: '\r' :: (c :: cs).reverse := by
      simp
    rw [this]
    rw [List.dropWhile_cons, if_pos (by decide), List.dropWhile_cons, if_pos (by decide)]
    rw [hb]
    simp

theorem trimChars_of_forall {cs : List Char} (h : ∀ c ∈ cs, isWsChar c = false) :
    trimChars (cs ++ crlf) = cs := by
  refine trimChars_line (dropWhile_eq_self_of_forall h) (dropWhile_eq_self_of_forall ?_)
  intro c hc
  exact h c (by simpa using hc)

mutual

theorem sizeV_lt_length (v : RespValue) : sizeV v + 1 ≤ v.serializeChars.length := by
  cases v with
  | Array items =>
    have h := sizeL_le_length items
    have hne := natDigits_ne_nil items.length
    have : 1 ≤ (natDigits items.length).length := by
      cases hq : natDigits items.length with
      | nil => exact absurd hq hne
      | cons a b => simp
    simp only [sizeV, RespValue.serializeChars, List.length_cons, List.length_append, crlf]
    omega
  | SimpleString s => simp [sizeV, RespValue.serializeChars, crlf]
  | BulkString s => simp [sizeV, RespValue.serializeChars, crlf]; omega
  | NullBulkString => simp [sizeV, RespValue.serializeChars, crlf]
  | NullArray => simp [sizeV, RespValue.serializeChars, crlf]
  | Integer n =>
    have hne := natDigits_ne_nil n.toNat
    simp only [sizeV, RespValue.serializeChars, List.length_cons, List.length_append, crlf]
    rw [intDigits]
    by_cases h : n < 0 <;> simp [h]
  | SimpleError s => simp [sizeV, RespValue.serializeChars, crlf]
  | BulkBytes bytes => simp [sizeV, RespValue.serializeChars, crlf]; omega

theorem sizeL_le_length (vs : List RespValue) : sizeL vs ≤ (serializeRespList vs).length := by
  cases vs with
  | nil => simp [sizeL, serializeRespList]
  | cons v vs =>
    have h1 := sizeV_lt_length v
    have h2 := sizeL_le_length vs
    simp only [sizeL, serializeRespList, List.length_append]
    omega

end

/-- Every character printed by `natDigits` is a decimal digit, hence not
whitespace. -/
theorem natDigits_not_ws {n : Nat} : ∀ c ∈ natDigits n, isWsChar c = false := fun c hc =>
  isWsChar_eq_false_of_ge (by have := natDigits_mem_toNat c hc; omega)

theorem natDigits_no_lf {n : Nat} : '\n' ∉ natDigits n := by
  intro h
  have := natDigits_mem_toNat _ h
  exact absurd this.1 (by decide)

theorem intDigits_not_ws {n : Int} : ∀ c ∈ intDigits n, isWsChar c = false := fun c hc =>
  isWsChar_eq_false_of_ge (by have := intDigits_mem_toNat c hc; omega)

theorem intDigits_no_lf {n : Int} : '\n' ∉ intDigits n := by
  intro h
  have := intDigits_mem_toNat _ h
  exact absurd this.1 (by decide)

theorem stringMk_data (s : String) : String.mk s.data = s := rfl

mutual

/-- Main round-trip lemma: on a clean value the reader inverts the
serializer and consumes exactly its bytes. -/
theorem readRespValue_serialize (v : RespValue) (hc : v.clean = true) :
    ∀ fuel : Nat, sizeV v ≤ fuel → ∀ rest : List Char,
      readRespValue fuel (v.serializeChars ++ rest) = .ok (some v, rest) := by
  intro fuel hfuel rest
  cases v with
  | SimpleString s =>
    obtain ⟨f, rfl⟩ : ∃ f, fuel = f + 1 := ⟨fuel - 1, by simp [sizeV] at hfuel; omega⟩
    simp only [RespValue.clean, cleanStrB, Bool.and_eq_true, decide_eq_true_eq] at hc
    obtain ⟨⟨hn, hf⟩, hb⟩ := hc
    have hshape : (RespValue.SimpleString s).serializeChars ++ rest =
        ('+' :: s.data ++ ['\r']) ++ '\n' :: rest := by
      simp [RespValue.serializeChars, crlf]
    rw [hshape, readRespValue,
      readLine_append rest (by simp [hn])]
    simp only [List.isEmpty_cons, List.head?_cons, List.tail_cons]
    have htail : (s.data ++ ['\r']) ++ ['\n'] = s.data ++ crlf := by simp [crlf]
    simp only [List.cons_append, List.tail_cons, htail]
    rw [trimChars_line hf hb, stringMk_data]
    simp
  | BulkString s =>
    obtain ⟨f, rfl⟩ : ∃ f, fuel = f + 1 := ⟨fuel - 1, by simp [sizeV] at hfuel; omega⟩
    simp only [RespValue.clean, cleanStrB, Bool.and_eq_true, decide_eq_true_eq] at hc
    obtain ⟨⟨hn, hf⟩, hb⟩ := hc
    have hshape : (RespValue.BulkString s).serializeChars ++ rest =
        ('$' :: natDigits s.data.length ++ ['\r']) ++ '\n' :: (s.data ++ crlf ++ rest) := by
      simp [RespValue.serializeChars, crlf]
    rw [hshape, readRespValue,
      readLine_append _ (by simp [natDigits_no_lf])]
    simp only [List.isEmpty_cons, List.head?_cons, List.tail_cons]
    have htail : (natDigits s.data.length ++ ['\r']) ++ ['\n'] =
        natDigits s.data.length ++ crlf := by simp [crlf]
    simp only [List.cons_append, List.tail_cons, htail]
    rw [trimChars_of_forall natDigits_not_ws, parseUsizeChars_natDigits]
    have hshape₂ : s.data ++ crlf ++ rest = (s.data ++ ['\r']) ++ '\n' :: rest := by
      simp [crlf]
    simp only [hshape₂]
    rw [readLine_append _ (by simp [hn])]
    have htail₂ : (s.data ++ ['\r']) ++ ['\n'] = s.data ++ crlf := by simp [crlf]
    simp only [htail₂]
    rw [trimChars_line hf hb]
    simp [stringMk_data]
  | Integer n =>
    obtain ⟨f, rfl⟩ : ∃ f, fuel = f + 1 := ⟨fuel - 1, by simp [sizeV] at hfuel; omega⟩
    simp only [RespValue.clean, decide_eq_true_eq] at hc
    have hshape : (RespValue.Integer n).serializeChars ++ rest =
        (':' :: intDigits n ++ ['\r']) ++ '\n' :: rest := by
      simp [RespValue.serializeChars, crlf]
    rw [hshape, readRespValue,
      readLine_append _ (by simp [intDigits_no_lf])]
    simp only [List.isEmpty_cons, List.head?_cons, List.tail_cons]
    have htail : (intDigits n ++ ['\r']) ++ ['\n'] = intDigits n ++ crlf := by simp [crlf]
    simp only [List.cons_append, List.tail_cons, htail]
    rw [trimChars_of_forall intDigits_not_ws, parseI64Chars_intDigits hc.1 hc.2]
    simp
  | Array items =>
    obtain ⟨f, rfl⟩ : ∃ f, fuel = f + 1 := ⟨fuel - 1, by simp [sizeV] at hfuel; omega⟩
    simp only [RespValue.clean] at hc
    have hshape : (RespValue.Array items).serializeChars ++ rest =
        ('*' :: natDigits items.length ++ ['\r']) ++
          '\n' :: (serializeRespList items ++ rest) := by
      simp [RespValue.serializeChars, crlf]
    rw [hshape, readRespValue,
      readLine_append _ (by simp [natDigits_no_lf])]
    simp only [List.isEmpty_cons, List.head?_cons, List.tail_cons]
    have htail : (natDigits items.length ++ ['\r']) ++ ['\n'] =
        natDigits items.length ++ crlf := by simp [crlf]
    simp only [List.cons_append, List.tail_cons, htail]
    rw [trimChars_of_forall natDigits_not_ws, parseUsizeChars_natDigits]
    have hsz : sizeL items ≤ f := by simp [sizeV] at hfuel; omega
    simp only []
    rw [readArrayItems_roundtrip items hc f hsz rest []]
    simp
  | NullBulkString => simp [RespValue.clean] at hc
  | NullArray => simp [RespValue.clean] at hc
  | SimpleError s => simp [RespValue.clean] at hc
  | BulkBytes bytes => simp [RespValue.clean] at hc

theorem readArrayItems_roundtrip (vs : List RespValue) (hc : cleanRespList vs = true) :
    ∀ fuel : Nat, sizeL vs ≤ fuel → ∀ (rest : List Char) (acc : List RespValue),
      readArrayItems fuel vs.length (serializeRespList vs ++ rest) acc =
        .ok (some (.Array (acc.reverse ++ vs)), rest) := by
  intro fuel hfuel rest acc
  cases vs with
  | nil => simp [readArrayItems, serializeRespList]
  | cons v vs =>
    obtain ⟨f, rfl⟩ : ∃ f, fuel = f + 1 := ⟨fuel - 1, by simp [sizeL] at hfuel; omega⟩
    simp only [cleanRespList, Bool.and_eq_true] at hc
    have hv : sizeV v ≤ f := by simp [sizeL] at hfuel; omega
    have hvs : sizeL vs ≤ f := by simp [sizeL] at hfuel; omega
    have hshape : serializeRespList (v :: vs) ++ rest =
        v.serializeChars ++ (serializeRespList vs ++ rest) := by
      simp [serializeRespList]
    simp only [List.length_cons, hshape, readArrayItems]
    rw [readRespValue_serialize v hc.1 f hv (serializeRespList vs ++ rest)]
    have hrec := readArrayItems_roundtrip vs hc.2 f hvs rest (v :: acc)
    simp [hrec]

end

/-! ## Small facts about the association lists -/

theorem dbGetEntry_dbSetEntry (db : Database) (k : String) (e : Entry) :
    dbGetEntry (dbSetEntry db k e) k = some e := by
  induction db with
  | nil => simp [dbSetEntry, dbGetEntry]
  | cons p rest ih =>
    obtain ⟨k', e'⟩ := p
    by_cases h : k' = k
    · subst h
      simp [dbSetEntry, dbGetEntry]
    · simpa [dbSetEntry, dbGetEntry, h] using ih

theorem applyReplication_exists_ok (c : Command) (st : EngineState) (v : RespValue)
    (h : c.forReplication = true → c.intoResp.isSome = true) :
    ∃ st', applyReplication c (.ok st v) = .ok st' v := by
  by_cases hf : c.forReplication = true
  · cases hrole : st.replicationRole with
    | Reader host port => exact ⟨st, by simp [applyReplication, hf, hrole]⟩
    | Writer w =>
      obtain ⟨r, hr⟩ := Option.isSome_iff_exists.mp (h hf)
      let w' : WriterRole := { w with offset := w.offset + r.serializeChars.length, writeQueue := w.writeQueue ++ [c] }
      refine ⟨({ st with replicationRole := .Writer w' } : EngineState), ?_⟩
      unfold applyReplication
      simp [hf, hrole, WriterRole.pushWriteCommand, hr, w']
  · refine ⟨st, ?_⟩
    unfold applyReplication
    simp only [Bool.not_eq_true] at hf
    simp [hf]

/-! ## Claim C1 — wire round-trip -/

/-- C1, counterexample: the reader has no branch for `-` frames and the
`$-1`/`*-1` null headers fail the unsigned length parse, so
`parse(serialize(x))` errors instead of returning `x` for the simple
error, the null bulk string and the null array — all of them well-formed
wire values the claim covers. -/
theorem C1_null_and_error_values_fail_roundtrip :
    readRespValueTop (RespValue.NullBulkString.serializeChars) =
        .error "parse-bulk-str-len" ∧
    readRespValueTop (RespValue.NullArray.serializeChars) =
        .error "parse-array-len" ∧
    readRespValueTop ((RespValue.SimpleError "ERR test").serializeChars) =
        .error "Unexpected incoming RESP string from connection" :=
  ⟨rfl, rfl, rfl⟩

/-- C1 (amended): `parse(serialize(x)) = x` holds for every well-formed
wire value built from `SimpleString`, `BulkString`, `Integer` and
`Array` whose strings contain no newline and no leading or trailing
whitespace (and whose integers are `i64`-representable, as all Rust
values are); the reader also consumes exactly the serialized bytes.
`SimpleError`, the null bulk string and the null array do not round-trip
(see the counterexample). -/
theorem C1_roundtrip_clean (v : RespValue) (hc : v.clean = true) :
    readRespValueTop v.serializeChars = .ok (some v, []) := by
  have hsz := sizeV_lt_length v
  have h := readRespValue_serialize v hc (v.serializeChars.length + 2) (by omega) []
  rw [List.append_nil] at h
  exact h

/-- Witness for C1: a concrete nested clean value round-trips. -/
theorem C1_roundtrip_clean_witness :
    readRespValueTop ((RespValue.Array [.BulkString "hello", .Integer (-7),
      .SimpleString "OK", .Array []]).serializeChars) =
      .ok (some (RespValue.Array [.BulkString "hello", .Integer (-7),
        .SimpleString "OK", .Array []]), []) :=
  C1_roundtrip_clean _ (by rfl)

/-! ## Claim C2 — LPOP/LPOPN null-vs-empty distinction -/

/-- C2, counterexample: `LPOPN` on an existing but EMPTY list replies
with the null bulk string, not the empty array the claim requires —
`list_pop_multi_front` returns `Ok(None)` for an empty list exactly as
for a missing key, and `pop_multi` maps `None` to `$-1`. -/
theorem C2_lpopn_empty_list_replies_null :
    executeOnly 1 env0 (.Lpopn "k" 5) none 0 (readerState [("k", Entry.Array [])]) =
      .ok (readerState [("k", Entry.Array [])]) .NullBulkString ∧
    RespValue.NullBulkString ≠ RespValue.Array [] := by
  exact ⟨rfl, by simp⟩

/-- C2 (amended): `LPOP` on a missing key replies null; `LPOPN` on a
missing key replies null; and `LPOPN` on an existing but empty list ALSO
replies null (the code does not distinguish empty from missing there —
the original claim's empty-array reply is what the counterexample
refutes). -/
theorem C2_pop_missing_and_empty_reply_null (fuel : Nat) (env : EngineEnv)
    (rc : Option Nat) (off : Nat) (st stE : EngineState) (key : String) (n : Nat)
    (hmiss : dbGetEntry st.db key = none)
    (hempty : dbGetEntry stE.db key = some (.Array [])) :
    (∃ s₁, executeOnly (fuel + 1) env (.Lpop key) rc off st = .ok s₁ .NullBulkString) ∧
    (∃ s₂, executeOnly (fuel + 1) env (.Lpopn key n) rc off st = .ok s₂ .NullBulkString) ∧
    (∃ s₃, executeOnly (fuel + 1) env (.Lpopn key n) rc off stE = .ok s₃ .NullBulkString) := by
  refine ⟨?_, ?_, ?_⟩
  · obtain ⟨s₁, hs₁⟩ := applyReplication_exists_ok (.Lpop key) st .NullBulkString
      (by intro _; simp [Command.intoResp])
    refine ⟨s₁, ?_⟩
    have hcore : Engine.pop key .Front st = .ok st .NullBulkString := by
      simp [Engine.pop, popOneDb, Database.listPopOneFront, Database.assertArray, hmiss]
    simp only [executeOnly, hcore]
    exact hs₁
  · obtain ⟨s₂, hs₂⟩ := applyReplication_exists_ok (.Lpopn key n) st .NullBulkString
      (by intro _; simp [Command.intoResp])
    refine ⟨s₂, ?_⟩
    have hcore : Engine.popMulti key n .Front st = .ok st .NullBulkString := by
      simp [Engine.popMulti, Database.listPopMultiFront, Database.assertArray, hmiss]
    simp only [executeOnly, hcore]
    exact hs₂
  · obtain ⟨s₃, hs₃⟩ := applyReplication_exists_ok (.Lpopn key n) stE .NullBulkString
      (by intro _; simp [Command.intoResp])
    refine ⟨s₃, ?_⟩
    have hcore : Engine.popMulti key n .Front stE = .ok stE .NullBulkString := by
      simp [Engine.popMulti, Database.listPopMultiFront, Database.assertArray,
        Entry.isArray, hempty]
    simp only [executeOnly, hcore]
    exact hs₃

/-- Witness for C2 at concrete states. -/
theorem C2_pop_missing_and_empty_reply_null_witness :
    (∃ s₁, executeOnly 1 env0 (.Lpop "k") none 0 (readerState []) =
        .ok s₁ .NullBulkString) ∧
    (∃ s₂, executeOnly 1 env0 (.Lpopn "k" 3) none 0 (readerState []) =
        .ok s₂ .NullBulkString) ∧
    (∃ s₃, executeOnly 1 env0 (.Lpopn "k" 3) none 0
        (readerState [("k", Entry.Array [])]) = .ok s₃ .NullBulkString) :=
  C2_pop_missing_and_empty_reply_null 0 env0 none 0 (readerState [])
    (readerState [("k", Entry.Array [])]) "k" 3 rfl rfl

/-! ## Claim C3 — command errors must not mutate the store -/

/-- C3: an `XADD` with the forbidden id `0-0` on a missing key DOES
mutate the store: `stream_push` inserts an empty stream entry with
`entry(key).or_insert(..)` before the id is validated, so the error
leaves `k ↦ Stream []` behind (observable through `TYPE` and through the
`WRONGTYPE` any later `SET`/`GET` of `k` reports), contradicting the
claim and the spec's "Command errors never mutate state". -/
theorem C3_xadd_error_leaves_empty_stream :
    (Database.streamPush 1000 "k" (.Full ⟨0, 0⟩) [("f", "v")] []).2 =
        .error "ERR The ID specified in XADD must be greater than 0-0" ∧
    (Database.streamPush 1000 "k" (.Full ⟨0, 0⟩) [("f", "v")] []).1 =
        [("k", Entry.Stream [])] ∧
    ([("k", Entry.Stream [])] : Database) ≠ [] ∧
    Database.getKeyTypeName "k" [("k", Entry.Stream [])] = "stream" :=
  ⟨rfl, rfl, by simp, rfl⟩

/-! ## Claim C5 — parser totality and SET arity errors -/

/-- C5: the parser is NOT total — the `SET` arm indexes `items[1]` and
`items[2]` before any length check, so the frames `["SET"]` and
`["SET", "k"]` panic with an index-out-of-bounds instead of returning
`ERR wrong number of arguments for 'set' command`.  (For arities 4 and
≥ 6 the claimed error IS returned, witnessed here too.) -/
theorem C5_set_short_frame_panics :
    CommandParser.parse (.Array [.BulkString "SET"]) =
        .panicked "index out of bounds" ∧
    CommandParser.parse (.Array [.BulkString "set", .BulkString "k"]) =
        .panicked "index out of bounds" ∧
    CommandParser.parse (.Array [.BulkString "SET", .BulkString "k",
        .BulkString "v", .BulkString "EX"]) =
      .err "ERR wrong number of arguments for 'set' command" ∧
    CommandParser.parse (.Array [.BulkString "SET", .BulkString "k", .BulkString "v",
        .BulkString "EX", .BulkString "1", .BulkString "extra"]) =
      .err "ERR wrong number of arguments for 'set' command" :=
  ⟨rfl, rfl, rfl, rfl⟩

/-! ## Claim C9 — snapshot reader on a string key-value pair -/

/-- C9: the snapshot reader can NEVER return successfully for a file
containing a key-value pair.  On a minimal `REDIS0011` file with a
value-type-0 pair `k ↦ v` it panics (`current_db_mut` unwraps the absent
db selector, and even past that the section loop runs `unimplemented!()`
right after `read_key_value`); with a database selector present the
`assert!(content.data.contains_key(..))` fires first; an expiry header
changes nothing.  The claim's "returns successfully with that key
mapped" is what the code's own `unimplemented!()` contradicts. -/
theorem C9_rdb_string_kv_panics :
    rdbRead [0x52, 0x45, 0x44, 0x49, 0x53, 0x30, 0x30, 0x31, 0x31,
        0x00, 0x01, 0x6B, 0x01, 0x76] =
      .panicked "unwrap-none in current_db_mut" ∧
    rdbRead [0x52, 0x45, 0x44, 0x49, 0x53, 0x30, 0x30, 0x31, 0x31,
        0xFE, 0xC0, 0x00] =
      .panicked "assertion failed: content.data.contains_key(&db_idx)" ∧
    rdbRead [0x52, 0x45, 0x44, 0x49, 0x53, 0x30, 0x30, 0x31, 0x31,
        0xFC, 0x01, 0x00, 0x00, 0x00, 0x00, 0x00, 0x00, 0x00,
        0x00, 0x01, 0x6B, 0x01, 0x76] =
      .panicked "unwrap-none in current_db_mut" :=
  ⟨rfl, rfl, rfl⟩

/-! ## Claim C10 — a plain SET clears the previous TTL -/

/-- C10: overwriting a string key with `set(key, value, None)` stores the
entry with NO expiry, whatever expiry the old entry carried; and a `SET`
with `EX`/`PX` stores exactly the fresh absolute instant
`now_ms + ttl`.  The old expiry is never carried over. -/
theorem C10_set_overwrites_expiry (nowMs : Nat) (key value oldV : String)
    (oldExp : Option Nat) (db : Database)
    (hold : dbGetEntry db key = some (.Value oldV oldExp)) :
    (Database.set nowMs key value none db).2 = .ok () ∧
    dbGetEntry (Database.set nowMs key value none db).1 key =
      some (.Value value none) ∧
    ∀ ttl : Nat, (Database.set nowMs key value (some ttl) db).2 = .ok () ∧
      dbGetEntry (Database.set nowMs key value (some ttl) db).1 key =
        some (.Value value (some (nowMs + ttl))) := by
  have hassert : Database.assertSingleValue db key = .ok () := by
    simp [Database.assertSingleValue, hold, Entry.isValue]
  refine ⟨?_, ?_, fun ttl => ⟨?_, ?_⟩⟩ <;>
    simp [Database.set, hassert, dbGetEntry_dbSetEntry]

/-- Witness for C10: a key with an old TTL, overwritten plainly and with
`PX`. -/
theorem C10_set_overwrites_expiry_witness :
    (Database.set 50 "k" "new" none [("k", Entry.Value "old" (some 7))]).2 = .ok () ∧
    dbGetEntry (Database.set 50 "k" "new" none
        [("k", Entry.Value "old" (some 7))]).1 "k" =
      some (.Value "new" none) ∧
    ∀ ttl : Nat, (Database.set 50 "k" "new" (some ttl)
        [("k", Entry.Value "old" (some 7))]).2 = .ok () ∧
      dbGetEntry (Database.set 50 "k" "new" (some ttl)
          [("k", Entry.Value "old" (some 7))]).1 "k" =
        some (.Value "new" (some (50 + ttl))) :=
  C10_set_overwrites_expiry 50 "k" "new" "old" (some 7) _ rfl

/-! ## Claim C8 — KEYS glob matching -/

theorem patternTransform_star (ps : List Char) :
    patternTransform ('*' :: ps) = '.' :: '*' :: patternTransform ps := by
  simp [patternTransform]

theorem patternTransform_qm (ps : List Char) :
    patternTransform ('?' :: ps) = '.' :: patternTransform ps := by
  simp [patternTransform]

theorem patternTransform_lit {c : Char} (h1 : c ≠ '*') (h2 : c ≠ '?')
    (ps : List Char) : patternTransform (c :: ps) = c :: patternTransform ps := by
  simp [patternTransform, h1, h2]

theorem patternTransform_ne_nil (c : Char) (ps : List Char) :
    patternTransform (c :: ps) ≠ [] := by
  by_cases h1 : c = '*'
  · subst h1; simp [patternTransform_star]
  · by_cases h2 : c = '?'
    · subst h2; simp [patternTransform_qm]
    · simp [patternTransform_lit h1 h2]

theorem safePatternChar_spec {c : Char} (h : safePatternChar c = true) :
    regexMetaErr c = false ∧ c ≠ '.' ∧ c ≠ '+' ∧ c ≠ '*' ∧ c ≠ '?' := by
  simp only [safePatternChar, Bool.not_eq_true', Bool.or_eq_false_iff,
    decide_eq_false_iff_not] at h
  exact ⟨h.1.1.1.1, h.1.1.1.2, h.1.1.2, h.1.2, h.2⟩

theorem patternTransform_head_not_quant {p : List Char}
    (hp : ∀ c ∈ p, c = '*' ∨ c = '?' ∨ safePatternChar c = true)
    {q : Char} {rest' : List Char} (heq : patternTransform p = q :: rest') :
    q ≠ '*' ∧ q ≠ '+' := by
  cases p with
  | nil => simp [patternTransform] at heq
  | cons c ps =>
    rcases hp c (by simp) with hc | hc | hc
    · subst hc
      rw [patternTransform_star] at heq
      injection heq with h1 _
      constructor <;> (rw [← h1]; decide)
    · subst hc
      rw [patternTransform_qm] at heq
      injection heq with h1 _
      constructor <;> (rw [← h1]; decide)
    · obtain ⟨_, _, hplus, hstar, hqm⟩ := safePatternChar_spec hc
      rw [patternTransform_lit hstar hqm] at heq
      injection heq with h1 _
      constructor <;> (rw [← h1]) <;> assumption

theorem trItems_star (ps : List Char) :
    trItems ('*' :: ps) = (RAtom.dot, RQuant.star) :: trItems ps := by
  simp [trItems]

theorem trItems_qm (ps : List Char) :
    trItems ('?' :: ps) = (RAtom.dot, RQuant.one) :: trItems ps := by
  simp [trItems]

theorem trItems_lit {c : Char} (h1 : c ≠ '*') (h2 : c ≠ '?') (ps : List Char) :
    trItems (c :: ps) = (RAtom.chr c, RQuant.one) :: trItems ps := by
  simp [trItems, h1, h2]

theorem trItems_length (p : List Char) : (trItems p).length = p.length := by
  induction p with
  | nil => rfl
  | cons c ps ih =>
    by_cases h1 : c = '*'
    · subst h1; simp [trItems_star, ih]
    · by_cases h2 : c = '?'
      · subst h2; simp [trItems_qm, ih]
      · simp [trItems_lit h1 h2, ih]

set_option maxHeartbeats 2000000 in
theorem regexCompile_transform : ∀ p : List Char,
    (∀ c ∈ p, c = '*' ∨ c = '?' ∨ safePatternChar c = true) →
    regexCompile (patternTransform p) = some (trItems p) := by
  intro p
  induction p with
  | nil => intro _; rfl
  | cons c ps ih =>
    intro hp
    have hps : ∀ x ∈ ps, x = '*' ∨ x = '?' ∨ safePatternChar x = true :=
      fun x hx => hp x (List.mem_cons_of_mem _ hx)
    have hrec := ih hps
    rcases hp c (by simp) with hc | hc | hc
    · subst hc
      rw [patternTransform_star, regexCompile]
      simp [regexMetaErr, hrec, trItems_star]
    · subst hc
      rw [patternTransform_qm]
      cases htr : patternTransform ps with
      | nil =>
        have hnil : ps = [] := by
          cases ps with
          | nil => rfl
          | cons a b => exact absurd htr (patternTransform_ne_nil a b)
        subst hnil
        rw [regexCompile]
        simp [regexMetaErr, trItems_qm, trItems]
      | cons q rest' =>
        obtain ⟨hq1, hq2⟩ := patternTransform_head_not_quant hps htr
        rw [regexCompile]
        simp [regexMetaErr, hq1, hq2, ← htr, hrec, trItems_qm]
    · obtain ⟨hm, hdot, hplus, hstar, hqm⟩ := safePatternChar_spec hc
      rw [patternTransform_lit hstar hqm]
      cases htr : patternTransform ps with
      | nil =>
        have hnil : ps = [] := by
          cases ps with
          | nil => rfl
          | cons a b => exact absurd htr (patternTransform_ne_nil a b)
        subst hnil
        rw [regexCompile]
        simp [hm, hstar, hplus, hdot, hqm, trItems_lit hstar hqm, trItems]
      | cons q rest' =>
        obtain ⟨hq1, hq2⟩ := patternTransform_head_not_quant hps htr
        rw [regexCompile]
        simp [hm, hstar, hplus, hdot, hq1, hq2, ← htr, hrec, trItems_lit hstar hqm]

theorem rmatch_trItems : ∀ (fuel : Nat) (p k : List Char),
    p.length + k.length < fuel → (∀ c ∈ k, c ≠ '\n') →
    rmatch fuel (trItems p) k = globMatchSpec p k := by
  intro fuel
  induction fuel with
  | zero => intro p k hlen _; omega
  | succ fuel ih =>
    intro p k hlen hk
    cases p with
    | nil =>
      cases k <;> simp [trItems, rmatch, globMatchSpec]
    | cons c ps =>
      by_cases hc : c = '*'
      · subst hc
        have h₁ : rmatch fuel (trItems ps) k = globMatchSpec ps k :=
          ih ps k (by simp at hlen ⊢; omega) hk
        cases k with
        | nil =>
          rw [trItems_star, rmatch]
          simp [globMatchSpec, h₁]
        | cons x xs =>
          have h₂ : rmatch fuel (trItems ('*' :: ps)) xs = globMatchSpec ('*' :: ps) xs :=
            ih ('*' :: ps) xs (by simp at hlen ⊢; omega)
              (fun c hcm => hk c (List.mem_cons_of_mem _ hcm))
          rw [trItems_star] at h₂ ⊢
          have hx : atomMatch RAtom.dot x = true := by
            simp [atomMatch, hk x (by simp)]
          rw [rmatch]
          simp [globMatchSpec, h₁, h₂, hx]
      · by_cases hq : c = '?'
        · subst hq
          cases k with
          | nil => rw [trItems_qm, rmatch]; simp [globMatchSpec]
          | cons x xs =>
            have h₁ : rmatch fuel (trItems ps) xs = globMatchSpec ps xs :=
              ih ps xs (by simp at hlen ⊢; omega)
                (fun c hcm => hk c (List.mem_cons_of_mem _ hcm))
            have hx : atomMatch RAtom.dot x = true := by
              simp [atomMatch, hk x (by simp)]
            rw [trItems_qm, rmatch]
            simp [globMatchSpec, h₁, hx]
        · cases k with
          | nil => rw [trItems_lit hc hq, rmatch]; simp [globMatchSpec, hc]
          | cons x xs =>
            have h₁ : rmatch fuel (trItems ps) xs = globMatchSpec ps xs :=
              ih ps xs (by simp at hlen ⊢; omega)
                (fun c hcm => hk c (List.mem_cons_of_mem _ hcm))
            rw [trItems_lit hc hq, rmatch]
            simp [globMatchSpec, h₁, atomMatch, hc, hq]

/-- C8, counterexample: the pattern is compiled as a regex, so `.` in a
pattern is a metacharacter (the claim says every character other than
`*`/`?` matches only itself: `a.c` must not match `axc`, yet the code
matches), and the matcher is not total over all pattern strings:
`PatternMatcher::new("(")` panics on the invalid regex `^($` (modelled
as `none`). -/
theorem C8_dot_metachar_and_panic :
    (match PatternMatcher.new "a.c" with
     | some m => PatternMatcher.isMatch m "axc"
     | none => false) = true ∧
    globMatchSpec "a.c".data "axc".data = false ∧
    PatternMatcher.new "(" = none := by
  refine ⟨rfl, ?_, rfl⟩
  simp [globMatchSpec]

/-- C8 (amended): for every pattern built only from `*`, `?` and
characters that are neither regex metacharacters (`. ( ) [ ] { } | \ ^ $ +`)
nor glob wildcards, compilation succeeds and `KEYS` matching agrees
exactly with the spec's glob semantics on every newline-free key (`*`
any sequence, `?` any single character, every other character only
itself).  On patterns containing regex metacharacters the matcher
follows the regex semantics instead (counterexample: `a.c` matches
`axc`), and on regex-invalid patterns such as `(` it panics. -/
theorem C8_glob_semantics (pattern key : String)
    (hp : ∀ c ∈ pattern.data, c = '*' ∨ c = '?' ∨ safePatternChar c = true)
    (hk : '\n' ∉ key.data) :
    PatternMatcher.new pattern = some (trItems pattern.data) ∧
    PatternMatcher.isMatch (trItems pattern.data) key =
      globMatchSpec pattern.data key.data := by
  refine ⟨regexCompile_transform pattern.data hp, ?_⟩
  unfold PatternMatcher.isMatch
  rw [trItems_length]
  exact rmatch_trItems (pattern.data.length + key.data.length + 1) pattern.data
    key.data (by omega) (fun c hcm he => hk (he ▸ hcm))

/-- Witness for C8 on a concrete glob-only pattern and key. -/
theorem C8_glob_semantics_witness :
    PatternMatcher.new "a*c?" = some (trItems "a*c?".data) ∧
    PatternMatcher.isMatch (trItems "a*c?".data) "abbcd" =
      globMatchSpec "a*c?".data "abbcd".data :=
  C8_glob_semantics "a*c?" "abbcd" (by decide) (by decide)

/-! ## Claim C4 — stream id resolution and monotonicity -/

theorem foldl_max_init (S : List Nat) : ∀ a : Nat, S.foldl max a = max a (S.foldl max 0) := by
  induction S with
  | nil => simp
  | cons s S ih =>
    intro a
    simp only [List.foldl_cons]
    rw [ih (max a s), ih (max 0 s)]
    omega

theorem foldl_maxSucc_init (S : List Nat) :
    ∀ a : Nat, S.foldl (fun x s => max x (s + 1)) a =
      max a (S.foldl (fun x s => max x (s + 1)) 0) := by
  induction S with
  | nil => simp
  | cons s S ih =>
    intro a
    simp only [List.foldl_cons]
    rw [ih (max a (s + 1)), ih (max 0 (s + 1))]
    omega

theorem foldl_maxSucc_eq (S : List Nat) (hS : S ≠ []) :
    S.foldl (fun x s => max x (s + 1)) 0 = S.foldl max 0 + 1 := by
  induction S with
  | nil => exact absurd rfl hS
  | cons s S ih =>
    simp only [List.foldl_cons]
    rw [foldl_maxSucc_init S, foldl_max_init S]
    cases S with
    | nil => simp only [List.foldl_nil]; omega
    | cons t T =>
      rw [ih (by simp)]
      omega

theorem mem_le_foldl_max {S : List Nat} {x : Nat} (hx : x ∈ S) : x ≤ S.foldl max 0 := by
  induction S with
  | nil => simp at hx
  | cons s S ih =>
    simp only [List.foldl_cons]
    rw [foldl_max_init S]
    rcases List.mem_cons.mp hx with h | h
    · omega
    · have := ih h; omega

/-- The running-maximum loop computing the auto-allocated `seq` in
`resolve_stream_entry_id` equals a max-fold over the seqs of the entries
with the same `ms`. -/
theorem seqFold_eq (l : List StreamValue) (ms : Nat) : ∀ init : Nat,
    l.foldl (fun acc e => if e.id.ms = ms ∧ e.id.seq ≥ acc then e.id.seq + 1 else acc) init =
      ((l.filter fun e => e.id.ms = ms).map fun e => e.id.seq).foldl
        (fun x s => max x (s + 1)) init := by
  induction l with
  | nil => intro init; rfl
  | cons e l ih =>
    intro init
    simp only [List.foldl_cons, List.filter_cons]
    by_cases hms : e.id.ms = ms
    · rw [if_pos (by simp [hms] : decide (e.id.ms = ms) = true)]
      simp only [List.map_cons, List.foldl_cons]
      have harm : (if e.id.ms = ms ∧ e.id.seq ≥ init then e.id.seq + 1 else init) =
          max init (e.id.seq + 1) := by
        by_cases hgeq : e.id.seq ≥ init
        · rw [if_pos ⟨hms, hgeq⟩]; omega
        · rw [if_neg (fun hc => hgeq hc.2)]; omega
      rw [harm]
      exact ih (max init (e.id.seq + 1))
    · rw [if_neg (by simp [hms] : ¬ decide (e.id.ms = ms) = true)]
      have harm : (if e.id.ms = ms ∧ e.id.seq ≥ init then e.id.seq + 1 else init) = init := by
        rw [if_neg (fun hc => hms hc.1)]
      rw [harm]
      exact ih init

/-- Generic shape of the final validation in `resolve_stream_entry_id`:
a successfully returned id beats every id already in the stream. -/
theorem resolveCheck_ok_gt {stream : List StreamValue} {m s : Nat}
    {rid : CompleteStreamEntryID}
    (h : (if m = 0 ∧ s = 0 then
            (Except.error "ERR The ID specified in XADD must be greater than 0-0" :
              Except String CompleteStreamEntryID)
          else if stream.any (fun e => m < e.id.ms ∨ (e.id.ms = m ∧ s ≤ e.id.seq)) then
            Except.error
              "ERR The ID specified in XADD is equal or smaller than the target stream top item"
          else Except.ok ⟨m, s⟩) = Except.ok rid) :
    ∀ e ∈ stream, idLt e.id rid = true := by
  intro e he
  split at h
  · exact Except.noConfusion h
  · split at h
    · exact Except.noConfusion h
    · rename_i h0 hany
      rw [Except.ok.injEq] at h
      subst h
      simp only [List.any_eq_true, decide_eq_true_eq, not_exists] at hany
      push_neg at hany
      have hne := hany e he
      simp only [idLt, Bool.or_eq_true, decide_eq_true_eq, Bool.and_eq_true]
      omega

/-- Converse of `resolveCheck_ok_gt`: a not-`0-0` id above the whole
stream passes the final validation. -/
theorem resolveCheck_eq_ok (stream : List StreamValue) (m s : Nat)
    (h0 : ¬(m = 0 ∧ s = 0)) (hall : ∀ e ∈ stream, idLt e.id ⟨m, s⟩ = true) :
    (if m = 0 ∧ s = 0 then
        (Except.error "ERR The ID specified in XADD must be greater than 0-0" :
          Except String CompleteStreamEntryID)
      else if stream.any (fun e => m < e.id.ms ∨ (e.id.ms = m ∧ s ≤ e.id.seq)) then
        Except.error
          "ERR The ID specified in XADD is equal or smaller than the target stream top item"
      else Except.ok ⟨m, s⟩) = Except.ok ⟨m, s⟩ := by
  have hany : ¬(stream.any (fun e => m < e.id.ms ∨ (e.id.ms = m ∧ s ≤ e.id.seq)) = true) := by
    simp only [List.any_eq_true, decide_eq_true_eq, not_exists]
    push_neg
    intro e he
    have := hall e he
    simp only [idLt, Bool.or_eq_true, decide_eq_true_eq, Bool.and_eq_true] at this
    omega
  rw [if_neg h0, if_neg hany]

/-- Any id a successful `resolve_stream_entry_id` returns is strictly
greater than every id already in the stream. -/
theorem resolveStreamEntryId_ok_gt {nowMs : Nat} {id : StreamEntryID}
    {stream : List StreamValue} {rid : CompleteStreamEntryID}
    (h : Database.resolveStreamEntryId nowMs id stream = .ok rid) :
    ∀ e ∈ stream, idLt e.id rid = true := by
  cases id with
  | Full c => exact resolveCheck_ok_gt h
  | MsOnly m => exact resolveCheck_ok_gt h
  | Wildcard => exact resolveCheck_ok_gt h

/-- Explicit full-id acceptance: `ms-seq` is stored iff it is not `0-0`
and is lexicographically above every existing id. -/
theorem resolve_full_iff (nowMs ms seq : Nat) (stream : List StreamValue) :
    Database.resolveStreamEntryId nowMs (.Full ⟨ms, seq⟩) stream = .ok ⟨ms, seq⟩ ↔
      (¬(ms = 0 ∧ seq = 0) ∧ ∀ e ∈ stream, idLt e.id ⟨ms, seq⟩ = true) := by
  constructor
  · intro h
    refine ⟨fun h00 => ?_, resolveStreamEntryId_ok_gt h⟩
    obtain ⟨rfl, rfl⟩ := h00
    simp [Database.resolveStreamEntryId] at h
  · rintro ⟨h0, hall⟩
    exact resolveCheck_eq_ok stream ms seq h0 hall

/-- Auto-allocation for the full wildcard `*` (positive clock, no
future-dated entries): `(now, 0)`, or `(now, max_same_ms_seq + 1)` on a
collision. -/
theorem resolve_wildcard_eq (nowMs : Nat) (stream : List StreamValue)
    (h0 : 0 < nowMs) (hle : ∀ e ∈ stream, e.id.ms ≤ nowMs) :
    Database.resolveStreamEntryId nowMs .Wildcard stream =
      .ok ⟨nowMs,
        if ((stream.filter fun e => e.id.ms = nowMs).map fun e => e.id.seq).isEmpty then 0
        else ((stream.filter fun e => e.id.ms = nowMs).map fun e => e.id.seq).foldl max 0 + 1⟩ := by
  set S := (stream.filter fun e => e.id.ms = nowMs).map fun e => e.id.seq with hSdef
  have hfold : stream.foldl
      (fun acc e => if e.id.ms = nowMs ∧ e.id.seq ≥ acc then e.id.seq + 1 else acc)
      (if nowMs = 0 then 1 else 0) =
      (if S.isEmpty then 0 else S.foldl max 0 + 1) := by
    rw [seqFold_eq, ← hSdef]
    by_cases hemp : S.isEmpty = true
    · rw [if_pos hemp, List.isEmpty_iff.mp hemp, List.foldl_nil,
        if_neg (by omega : ¬ nowMs = 0)]
    · have hSne : S ≠ [] := by
        intro hnil
        rw [hnil] at hemp
        simp at hemp
      rw [if_neg hemp, foldl_maxSucc_init, foldl_maxSucc_eq S hSne,
        if_neg (by omega : ¬ nowMs = 0)]
      omega
  have h0' : ¬(nowMs = 0 ∧ stream.foldl
      (fun acc e => if e.id.ms = nowMs ∧ e.id.seq ≥ acc then e.id.seq + 1 else acc)
      (if nowMs = 0 then 1 else 0) = 0) := fun hc => absurd hc.1 (by omega)
  have hall : ∀ e ∈ stream, idLt e.id
      ⟨nowMs, stream.foldl
        (fun acc e => if e.id.ms = nowMs ∧ e.id.seq ≥ acc then e.id.seq + 1 else acc)
        (if nowMs = 0 then 1 else 0)⟩ = true := by
    intro e he
    rw [hfold]
    simp only [idLt, Bool.or_eq_true, decide_eq_true_eq, Bool.and_eq_true]
    rcases Nat.lt_or_ge e.id.ms nowMs with hlt | hge2
    · exact Or.inl hlt
    · have hems : e.id.ms = nowMs := Nat.le_antisymm (hle e he) hge2
      refine Or.inr ⟨hems, ?_⟩
      have hmem : e.id.seq ∈ S := by
        rw [hSdef]
        exact List.mem_map_of_mem _ (List.mem_filter.mpr ⟨he, by simp [hems]⟩)
      have hne : ¬ S.isEmpty = true := by
        intro hemp
        rw [List.isEmpty_iff.mp hemp] at hmem
        simp at hmem
      rw [if_neg hne]
      exact Nat.lt_succ_of_le (mem_le_foldl_max hmem)
  have key := resolveCheck_eq_ok stream nowMs (stream.foldl
      (fun acc e => if e.id.ms = nowMs ∧ e.id.seq ≥ acc then e.id.seq + 1 else acc)
      (if nowMs = 0 then 1 else 0)) h0' hall
  calc Database.resolveStreamEntryId nowMs .Wildcard stream
      = Except.ok ⟨nowMs, stream.foldl
          (fun acc e => if e.id.ms = nowMs ∧ e.id.seq ≥ acc then e.id.seq + 1 else acc)
          (if nowMs = 0 then 1 else 0)⟩ := key
    _ = Except.ok ⟨nowMs, if S.isEmpty then 0 else S.foldl max 0 + 1⟩ := by rw [hfold]

/-- Auto-allocation for the `ms-*` wildcard: the seq starts at `1` when
`ms = 0` and at `0` otherwise, or is `max_same_ms_seq + 1` on a
collision; no future-dated entries assumed. -/
theorem resolve_msonly_eq (nowMs ms : Nat) (stream : List StreamValue)
    (hle : ∀ e ∈ stream, e.id.ms ≤ ms) :
    Database.resolveStreamEntryId nowMs (.MsOnly ms) stream =
      .ok ⟨ms,
        if ((stream.filter fun e => e.id.ms = ms).map fun e => e.id.seq).isEmpty then
          (if ms = 0 then 1 else 0)
        else ((stream.filter fun e => e.id.ms = ms).map fun e => e.id.seq).foldl max 0 + 1⟩ := by
  set S := (stream.filter fun e => e.id.ms = ms).map fun e => e.id.seq with hSdef
  have hfold : stream.foldl
      (fun acc e => if e.id.ms = ms ∧ e.id.seq ≥ acc then e.id.seq + 1 else acc)
      (if ms = 0 then 1 else 0) =
      (if S.isEmpty then (if ms = 0 then 1 else 0) else S.foldl max 0 + 1) := by
    rw [seqFold_eq, ← hSdef]
    by_cases hemp : S.isEmpty = true
    · rw [if_pos hemp, List.isEmpty_iff.mp hemp, List.foldl_nil]
    · have hSne : S ≠ [] := by
        intro hnil
        rw [hnil] at hemp
        simp at hemp
      rw [if_neg hemp, foldl_maxSucc_init, foldl_maxSucc_eq S hSne]
      split <;> omega
  have h0' : ¬(ms = 0 ∧ stream.foldl
      (fun acc e => if e.id.ms = ms ∧ e.id.seq ≥ acc then e.id.seq + 1 else acc)
      (if ms = 0 then 1 else 0) = 0) := by
    rintro ⟨hms0, hz⟩
    rw [hfold] at hz
    by_cases hemp : S.isEmpty = true
    · rw [if_pos hemp, if_pos hms0] at hz
      exact absurd hz Nat.one_ne_zero
    · rw [if_neg hemp] at hz
      omega
  have hall : ∀ e ∈ stream, idLt e.id
      ⟨ms, stream.foldl
        (fun acc e => if e.id.ms = ms ∧ e.id.seq ≥ acc then e.id.seq + 1 else acc)
        (if ms = 0 then 1 else 0)⟩ = true := by
    intro e he
    rw [hfold]
    simp only [idLt, Bool.or_eq_true, decide_eq_true_eq, Bool.and_eq_true]
    rcases Nat.lt_or_ge e.id.ms ms with hlt | hge2
    · exact Or.inl hlt
    · have hems : e.id.ms = ms := Nat.le_antisymm (hle e he) hge2
      refine Or.inr ⟨hems, ?_⟩
      have hmem : e.id.seq ∈ S := by
        rw [hSdef]
        exact List.mem_map_of_mem _ (List.mem_filter.mpr ⟨he, by simp [hems]⟩)
      have hne : ¬ S.isEmpty = true := by
        intro hemp
        rw [List.isEmpty_iff.mp hemp] at hmem
        simp at hmem
      rw [if_neg hne]
      exact Nat.lt_succ_of_le (mem_le_foldl_max hmem)
  have key := resolveCheck_eq_ok stream ms (stream.foldl
      (fun acc e => if e.id.ms = ms ∧ e.id.seq ≥ acc then e.id.seq + 1 else acc)
      (if ms = 0 then 1 else 0)) h0' hall
  calc Database.resolveStreamEntryId nowMs (.MsOnly ms) stream
      = Except.ok ⟨ms, stream.foldl
          (fun acc e => if e.id.ms = ms ∧ e.id.seq ≥ acc then e.id.seq + 1 else acc)
          (if ms = 0 then 1 else 0)⟩ := key
    _ = Except.ok ⟨ms, if S.isEmpty then (if ms = 0 then 1 else 0)
          else S.foldl max 0 + 1⟩ := by rw [hfold]

/-- Every id returned during a run of `XADD`s dominates the whole
starting stream, and the returned ids come out strictly increasing. -/
theorem xaddRun_gt_and_chain : ∀ (ops : List (Nat × StreamEntryID × List (String × String)))
    (stream : List StreamValue),
    (∀ r ∈ (xaddRun ops stream).2, ∀ e ∈ stream, idLt e.id r = true) ∧
    List.Chain' (fun a b => idLt a b = true) (xaddRun ops stream).2 := by
  intro ops
  induction ops with
  | nil => intro stream; simp [xaddRun]
  | cons op rest ih =>
    intro stream
    obtain ⟨now, id, kvs⟩ := op
    cases hres : Database.resolveStreamEntryId now id stream with
    | error e =>
      have hred : xaddRun ((now, id, kvs) :: rest) stream = xaddRun rest stream := by
        simp only [xaddRun, hres]
      rw [hred]
      exact ih stream
    | ok rid =>
      have hgt := resolveStreamEntryId_ok_gt hres
      have ihh := ih (stream ++ [⟨rid, kvs⟩])
      rcases hxa : xaddRun rest (stream ++ [⟨rid, kvs⟩]) with ⟨s', ids⟩
      rw [hxa] at ihh
      have hred : xaddRun ((now, id, kvs) :: rest) stream = (s', rid :: ids) := by
        simp only [xaddRun, hres, hxa]
      rw [hred]
      constructor
      · intro r hr e he
        rcases List.mem_cons.mp hr with hr | hr
        · exact hr ▸ hgt e he
        · exact ihh.1 r hr e (List.mem_append_left _ he)
      · rw [List.chain'_cons']
        refine ⟨fun b hb => ?_, ihh.2⟩
        have hmem : b ∈ ids := List.mem_of_mem_head? hb
        exact ihh.1 b hmem ⟨rid, kvs⟩ (List.mem_append_right _ (List.mem_singleton_self _))

/-- C4: stream id resolution (amended).  (a) An explicit full id is
accepted iff it is not `0-0` and lexicographically greater than every id
in the stream.  (b) With a positive clock and no entry dated after
`current_ms`, a full `*` resolves to `(current_ms, 0)`, or to
`(current_ms, max existing seq for that ms + 1)` if entries with that ms
exist.  (c) `ms-*` resolves the same way over entries dated at most
`ms`, except that the seq starts at 1 when `ms = 0`.  (d) The ids
returned by any sequence of successful `XADD`s on one stream are
strictly increasing in lexicographic `(ms, seq)` order.  (The
amendment: the claim's wildcard clause is false when the stream already
holds an id dated beyond the clock — the code then rejects the `XADD`
instead of resolving; see the counterexample.) -/
theorem C4_stream_id_resolution :
    (∀ (nowMs ms seq : Nat) (stream : List StreamValue),
      Database.resolveStreamEntryId nowMs (.Full ⟨ms, seq⟩) stream = .ok ⟨ms, seq⟩ ↔
        (¬(ms = 0 ∧ seq = 0) ∧ ∀ e ∈ stream, idLt e.id ⟨ms, seq⟩ = true)) ∧
    (∀ (nowMs : Nat) (stream : List StreamValue), 0 < nowMs →
      (∀ e ∈ stream, e.id.ms ≤ nowMs) →
      Database.resolveStreamEntryId nowMs .Wildcard stream =
        .ok ⟨nowMs,
          if ((stream.filter fun e => e.id.ms = nowMs).map fun e => e.id.seq).isEmpty then 0
          else ((stream.filter fun e => e.id.ms = nowMs).map fun e => e.id.seq).foldl max 0
            + 1⟩) ∧
    (∀ (nowMs ms : Nat) (stream : List StreamValue),
      (∀ e ∈ stream, e.id.ms ≤ ms) →
      Database.resolveStreamEntryId nowMs (.MsOnly ms) stream =
        .ok ⟨ms,
          if ((stream.filter fun e => e.id.ms = ms).map fun e => e.id.seq).isEmpty then
            (if ms = 0 then 1 else 0)
          else ((stream.filter fun e => e.id.ms = ms).map fun e => e.id.seq).foldl max 0
            + 1⟩) ∧
    (∀ (ops : List (Nat × StreamEntryID × List (String × String)))
        (stream : List StreamValue),
      List.Chain' (fun a b => idLt a b = true) (xaddRun ops stream).2) :=
  ⟨resolve_full_iff, resolve_wildcard_eq, resolve_msonly_eq,
    fun ops stream => (xaddRun_gt_and_chain ops stream).2⟩

/-- C4, counterexample to the claim as frozen: on the stream holding only
`5-0` with `current_ms = 1` there is no entry with `ms = 1`, so the claim
says `XADD <key> *` allocates `(1, 0)`; the code rejects the XADD
instead (monotonicity wins over the claimed allocation rule). -/
theorem C4_wildcard_future_entry_rejected :
    Database.resolveStreamEntryId 1 .Wildcard [⟨⟨5, 0⟩, []⟩] =
      .error
        "ERR The ID specified in XADD is equal or smaller than the target stream top item" ∧
    ([⟨⟨5, 0⟩, []⟩] : List StreamValue).filter (fun e => e.id.ms = 1) = [] :=
  ⟨rfl, rfl⟩

/-- Witness for C4 at concrete inputs: a fresh full id over `7-2`, a
wildcard collision resolving to `7-3`, an `ms-*` on `ms = 0` starting at
seq 1, and a three-step strictly increasing run. -/
theorem C4_stream_id_resolution_witness :
    Database.resolveStreamEntryId 9 (.Full ⟨7, 3⟩) [⟨⟨7, 2⟩, []⟩] = .ok ⟨7, 3⟩ ∧
    Database.resolveStreamEntryId 7 .Wildcard [⟨⟨7, 2⟩, []⟩] = .ok ⟨7, 3⟩ ∧
    Database.resolveStreamEntryId 9 (.MsOnly 0) [] = .ok ⟨0, 1⟩ ∧
    List.Chain' (fun a b => idLt a b = true)
      (xaddRun [(5, .Wildcard, []), (5, .Full ⟨5, 9⟩, []), (6, .MsOnly 6, [])] []).2 := by
  refine ⟨?_, ?_, ?_, C4_stream_id_resolution.2.2.2 _ _⟩
  · exact (C4_stream_id_resolution.1 9 7 3 _).mpr (by decide)
  · exact (C4_stream_id_resolution.2.1 7 _ (by decide) (by decide)).trans rfl
  · exact (C4_stream_id_resolution.2.2.1 9 0 [] (by decide)).trans rfl

/-! ## Claim C6 — replication byte-offset law -/

/-- Outcomes whose state differs from the input state only in the store
leave both the leader offset and the writer-ness of the role intact. -/
theorem shape_pre {st st₁ : EngineState}
    (h : ∃ db', st₁ = { st with db := db' }) :
    offsetOf st₁.replicationRole = offsetOf st.replicationRole ∧
    st₁.replicationRole.isWriter = st.replicationRole.isWriter := by
  obtain ⟨db', rfl⟩ := h
  exact ⟨rfl, rfl⟩

/-- Outcomes that replace the role with an offset- and kind-preserving
one keep the two offset-law observables. -/
theorem roleShape_pre {st st₁ : EngineState}
    (h : ∃ r, st₁ = { st with replicationRole := r } ∧
      offsetOf r = offsetOf st.replicationRole ∧
      r.isWriter = st.replicationRole.isWriter) :
    offsetOf st₁.replicationRole = offsetOf st.replicationRole ∧
    st₁.replicationRole.isWriter = st.replicationRole.isWriter := by
  obtain ⟨r, rfl, h1, h2⟩ := h
  exact ⟨h1, h2⟩

/-- `Engine::push` only rewrites the store. -/
theorem push_shape (key : String) (values : List String) (dir : ArrayDirection)
    (st : EngineState) {st₁ : EngineState} {v : RespValue}
    (h : Engine.push key values dir st = .ok st₁ v) :
    ∃ db', st₁ = { st with db := db' } := by
  simp only [Engine.push] at h
  split at h <;>
    (simp only [EngineOutcome.ok.injEq] at h
     obtain ⟨h1, h2⟩ := h
     exact ⟨_, h1.symm⟩)

/-- `Engine::pop` only rewrites the store. -/
theorem pop_shape (key : String) (dir : ArrayDirection) (st : EngineState)
    {st₁ : EngineState} {v : RespValue}
    (h : Engine.pop key dir st = .ok st₁ v) :
    ∃ db', st₁ = { st with db := db' } := by
  simp only [Engine.pop] at h
  split at h <;>
    (simp only [EngineOutcome.ok.injEq] at h
     obtain ⟨h1, h2⟩ := h
     exact ⟨_, h1.symm⟩)

/-- `Engine::pop_multi` only rewrites the store. -/
theorem popMulti_shape (key : String) (n : Nat) (dir : ArrayDirection)
    (st : EngineState) {st₁ : EngineState} {v : RespValue}
    (h : Engine.popMulti key n dir st = .ok st₁ v) :
    ∃ db', st₁ = { st with db := db' } := by
  simp only [Engine.popMulti] at h
  split at h <;>
    (simp only [EngineOutcome.ok.injEq] at h
     obtain ⟨h1, h2⟩ := h
     exact ⟨_, h1.symm⟩)

/-- `Engine::blocking_pop` only rewrites the store when it replies. -/
theorem blockingPop_shape (keys : List String) (dir : ArrayDirection)
    (st : EngineState) : ∀ {st₁ : EngineState} {v : RespValue},
    Engine.blockingPop keys dir st = .ok st₁ v →
    ∃ db', st₁ = { st with db := db' } := by
  induction keys with
  | nil =>
    intro st₁ v h
    simp only [Engine.blockingPop, EngineOutcome.ok.injEq] at h
    obtain ⟨h1, h2⟩ := h
    exact ⟨st.db, h1.symm⟩
  | cons key rest ih =>
    intro st₁ v h
    simp only [Engine.blockingPop] at h
    split at h
    · exact EngineOutcome.noConfusion h
    · simp only [EngineOutcome.ok.injEq] at h
      obtain ⟨h1, h2⟩ := h
      exact ⟨_, h1.symm⟩
    · exact ih h

/-- The `XRANGE` arm never touches the state. -/
theorem xrangeRun_shape (key : String) (s f : RangeStreamEntryID) (count : Nat)
    (st : EngineState) {st₁ : EngineState} {v : RespValue}
    (h : Engine.xrangeRun key s f count st = .ok st₁ v) :
    ∃ db', st₁ = { st with db := db' } := by
  simp only [Engine.xrangeRun] at h
  repeat' split at h
  all_goals
    first
    | exact EngineOutcome.noConfusion h
    | (simp only [EngineOutcome.ok.injEq] at h
       obtain ⟨h1, h2⟩ := h
       exact ⟨st.db, h1.symm⟩)

/-- The `XREAD` arm never touches the state. -/
theorem xreadRun_shape (pairs : List (String × RangeStreamEntryID)) (count : Nat)
    (ttl : Option Nat) (st : EngineState) {st₁ : EngineState} {v : RespValue}
    (h : Engine.xreadRun pairs count ttl st = .ok st₁ v) :
    ∃ db', st₁ = { st with db := db' } := by
  simp only [Engine.xreadRun] at h
  repeat' split at h
  all_goals
    first
    | exact EngineOutcome.noConfusion h
    | (simp only [EngineOutcome.ok.injEq] at h
       obtain ⟨h1, h2⟩ := h
       exact ⟨st.db, h1.symm⟩)

/-- The `CONFIG GET` arm never touches the state. -/
theorem getConfigRun_shape (env : EngineEnv) (params : List String)
    (st : EngineState) {st₁ : EngineState} {v : RespValue}
    (h : Engine.getConfigRun env params st = .ok st₁ v) :
    ∃ db', st₁ = { st with db := db' } := by
  simp only [Engine.getConfigRun] at h
  split at h
  · exact EngineOutcome.noConfusion h
  · simp only [EngineOutcome.ok.injEq] at h
    obtain ⟨h1, h2⟩ := h
    exact ⟨st.db, h1.symm⟩

/-- `Engine::wait` only rewrites the follower bookkeeping inside the
role, never the leader offset. -/
theorem waitRun_shape (st : EngineState) {st₁ : EngineState} {v : RespValue}
    (h : Engine.waitRun st = .ok st₁ v) :
    ∃ r, st₁ = { st with replicationRole := r } ∧
      offsetOf r = offsetOf st.replicationRole ∧
      r.isWriter = st.replicationRole.isWriter := by
  simp only [Engine.waitRun] at h
  split at h
  · exact EngineOutcome.noConfusion h
  · rename_i w heq
    simp only [EngineOutcome.ok.injEq] at h
    obtain ⟨h1, h2⟩ := h
    refine ⟨_, h1.symm, ?_, ?_⟩ <;>
      simp [offsetOf, ReplicationRole.isWriter, heq]

/-- The `REPLCONF` arm only rewrites the client bookkeeping inside the
role, never the leader offset. -/
theorem replconfRun_shape (args : List String) (rc : Option Nat) (co : Nat)
    (st : EngineState) {st₁ : EngineState} {v : RespValue}
    (h : Engine.replconfRun args rc co st = .ok st₁ v) :
    ∃ r, st₁ = { st with replicationRole := r } ∧
      offsetOf r = offsetOf st.replicationRole ∧
      r.isWriter = st.replicationRole.isWriter := by
  simp only [Engine.replconfRun] at h
  split at h
  · rename_i w heq
    repeat' split at h
    all_goals
      first
      | exact EngineOutcome.noConfusion h
      | (simp only [EngineOutcome.ok.injEq] at h
         obtain ⟨h1, h2⟩ := h
         refine ⟨_, h1.symm, ?_, ?_⟩ <;>
           simp [offsetOf, ReplicationRole.isWriter, heq])
  · repeat' split at h
    all_goals
      first
      | exact EngineOutcome.noConfusion h
      | (simp only [EngineOutcome.ok.injEq] at h
         obtain ⟨h1, h2⟩ := h
         exact ⟨st.replicationRole, h1.symm, rfl, rfl⟩)

/-- The replication hook's arithmetic: if the pre-hook outcome preserved
offset and writer-ness, the hook's successful result grows the offset by
the wire length exactly when the command is propagatable on a leader. -/
theorem applyOffsetOf {c : Command} {st : EngineState} {r : EngineOutcome}
    {st' : EngineState} {v' : RespValue}
    (h : applyReplication c r = .ok st' v')
    (hr : ∀ st₁ v₁, r = .ok st₁ v₁ →
      offsetOf st₁.replicationRole = offsetOf st.replicationRole ∧
      st₁.replicationRole.isWriter = st.replicationRole.isWriter) :
    offsetOf st'.replicationRole = offsetOf st.replicationRole +
      (if c.forReplication && st.replicationRole.isWriter then respWireLen c
       else 0) := by
  cases r with
  | ok st₁ v₁ =>
    obtain ⟨hoff, hwr⟩ := hr st₁ v₁ rfl
    by_cases hf : c.forReplication = true
    · cases hrole : st₁.replicationRole with
      | Reader host port =>
        simp [applyReplication, hf, hrole] at h
        obtain ⟨h1, h2⟩ := h
        subst h1
        have hw : st.replicationRole.isWriter = false := by
          rw [← hwr, hrole]; rfl
        rw [hw, Bool.and_false, if_neg Bool.false_ne_true, Nat.add_zero]
        exact hoff
      | Writer w =>
        have hw : st.replicationRole.isWriter = true := by
          rw [← hwr, hrole]; rfl
        cases hresp : c.intoResp with
        | none =>
          have hpw : WriterRole.pushWriteCommand w c = none := by
            simp [WriterRole.pushWriteCommand, hresp]
          simp [applyReplication, hf, hrole, hpw] at h
        | some rr =>
          have hpw : WriterRole.pushWriteCommand w c = some { w with
              offset := w.offset + rr.serializeChars.length,
              writeQueue := w.writeQueue ++ [c] } := by
            simp [WriterRole.pushWriteCommand, hresp]
          simp [applyReplication, hf, hrole, hpw] at h
          obtain ⟨h1, h2⟩ := h
          subst h1
          have hlen : respWireLen c = rr.serializeChars.length := by
            simp [respWireLen, hresp]
          rw [hw, Bool.and_true, hf, if_pos rfl, hlen, ← hoff, hrole]
          rfl
    · have hf' : c.forReplication = false := by
        revert hf; cases c.forReplication <;> simp
      simp [applyReplication, hf'] at h
      obtain ⟨h1, h2⟩ := h
      subst h1
      rw [hf', Bool.false_and, if_neg Bool.false_ne_true, Nat.add_zero]
      exact hoff
  | err st₁ m => simp [applyReplication] at h
  | panicked m => simp [applyReplication] at h
  | unmodeled w => simp [applyReplication] at h

/-- C6 (amended): for every command other than `EXEC`, a call of
`execute_only` that ends in a reply grows the replication offset by
exactly `len(serialize(to_wire(C)))` when the command is propagatable
and runs on the leader, and leaves the offset unchanged otherwise (on a
follower, or for a non-propagatable command).  The amendment: `EXEC`
must be excluded — it is itself non-propagatable, yet it replays its
queued propagatable commands, each of which bumps the offset (see the
counterexample). -/
theorem C6_offset_law (fuel : Nat) (env : EngineEnv) (c : Command)
    (rc : Option Nat) (co : Nat) (st : EngineState) (st' : EngineState)
    (v : RespValue) (hc : c.isExec = false)
    (h : executeOnly (fuel + 1) env c rc co st = .ok st' v) :
    offsetOf st'.replicationRole = offsetOf st.replicationRole +
      (if c.forReplication && st.replicationRole.isWriter then respWireLen c
       else 0) := by
  cases c
  case Exec => exact Bool.noConfusion hc
  all_goals (
    simp only [executeOnly] at h
    refine applyOffsetOf h ?_
    intro st₁ v₁ hr
    first
    | exact EngineOutcome.noConfusion hr
    | exact shape_pre (push_shape _ _ _ _ hr)
    | exact shape_pre (pop_shape _ _ _ hr)
    | exact shape_pre (popMulti_shape _ _ _ _ hr)
    | exact shape_pre (blockingPop_shape _ _ _ hr)
    | exact shape_pre (xrangeRun_shape _ _ _ _ _ hr)
    | exact shape_pre (xreadRun_shape _ _ _ _ hr)
    | exact shape_pre (getConfigRun_shape _ _ _ hr)
    | exact roleShape_pre (waitRun_shape _ hr)
    | exact roleShape_pre (replconfRun_shape _ _ _ _ hr)
    | (repeat' split at hr
       all_goals
         first
         | exact EngineOutcome.noConfusion hr
         | (simp only [EngineOutcome.ok.injEq] at hr
            obtain ⟨h1, h2⟩ := hr
            subst h1
            exact ⟨rfl, rfl⟩)))

/-- C6, counterexample to the claim as frozen: `EXEC` is not
propagatable, yet executing it on a leader with a queued `SET a 1`
advances the leader offset from 0 to 27 — the wire length of the
replayed `SET` — so a non-propagatable command does not always leave the
offset unchanged. -/
theorem C6_exec_bumps_offset_though_not_propagatable :
    Command.Exec.forReplication = false ∧
    executeOnly 3 env0 .Exec (some 1) 0 txSetState =
      .ok setOutState (.Array [.SimpleString "OK"]) ∧
    offsetOf setOutState.replicationRole = 27 ∧
    offsetOf txSetState.replicationRole = 0 ∧
    respWireLen (.Set "a" "1" none) = 27 :=
  ⟨rfl, by rfl, rfl, rfl, by rfl⟩

/-- Witness for C6: running the propagatable `SET a 1` on a fresh leader
grows the offset by exactly its 27 wire bytes. -/
theorem C6_offset_law_witness :
    offsetOf setOutState.replicationRole =
      offsetOf writerState.replicationRole +
        (if (Command.Set "a" "1" none).forReplication &&
            writerState.replicationRole.isWriter then
          respWireLen (.Set "a" "1" none)
        else 0) :=
  C6_offset_law 0 env0 (.Set "a" "1" none) (some 1) 0 writerState setOutState
    (.SimpleString "OK") rfl (by rfl)

/-! ## Claim C7 — transactions: queue, EXEC reply shape, state reset -/

theorem txSetList_find (l : List (Nat × List Command)) (rc : Nat)
    (cmds : List Command) :
    (txSetList l rc cmds).find? (fun p => p.1 = rc) = some (rc, cmds) := by
  induction l with
  | nil => simp [txSetList, List.find?]
  | cons p rest ih =>
    obtain ⟨rc', cmds'⟩ := p
    by_cases hrc : rc' = rc
    · subst hrc
      simp [txSetList, List.find?]
    · simp only [txSetList, if_neg hrc]
      rw [List.find?_cons_of_neg]
      · exact ih
      · simp [hrc]

/-- Updating connection `rc`'s buffer stores exactly that buffer. -/
theorem txGet_txInsert (st : EngineState) (rc : Nat) (cmds : List Command) :
    txGet (txInsert st rc cmds) rc = some cmds := by
  simp only [txGet, txInsert]
  rw [txSetList_find]
  rfl

/-- A connection with a queued buffer is inside a transaction. -/
theorem txContains_of_txGet {st : EngineState} {rc : Nat} {cs : List Command}
    (h : txGet st rc = some cs) : txContains st rc = true := by
  unfold txGet at h
  unfold txContains
  cases hf : st.transactionStore.find? fun p => p.1 = rc with
  | none => rw [hf] at h; simp at h
  | some p =>
    rw [List.any_eq_true]
    have hpa := List.find?_some hf
    exact ⟨p, List.mem_of_find?_eq_some hf, hpa⟩

/-- A connection outside a transaction has no queued buffer. -/
theorem txGet_eq_none {st : EngineState} {rc : Nat}
    (h : txContains st rc = false) : txGet st rc = none := by
  unfold txContains at h
  unfold txGet
  cases hf : st.transactionStore.find? fun p => p.1 = rc with
  | none => rfl
  | some p =>
    exfalso
    have hpa := List.find?_some hf
    have hany : st.transactionStore.any (fun p => p.1 = rc) = true :=
      List.any_eq_true.mpr ⟨p, List.mem_of_find?_eq_some hf, hpa⟩
    rw [h] at hany
    exact Bool.noConfusion hany

/-- Removing a connection's buffer takes it out of the transaction. -/
theorem txContains_txRemove_self (st : EngineState) (rc : Nat) :
    txContains (txRemove st rc) rc = false := by
  cases hval : txContains (txRemove st rc) rc with
  | false => rfl
  | true =>
    exfalso
    unfold txContains txRemove at hval
    rw [List.any_eq_true] at hval
    obtain ⟨p, hp, hpe⟩ := hval
    have hkeep := (List.mem_filter.mp hp).2
    simp only [decide_eq_true_eq] at hkeep hpe
    exact hkeep hpe

/-- Removing one buffer never puts another connection into a
transaction. -/
theorem txContains_txRemove_false {st : EngineState} {rc rc0 : Nat}
    (h : txContains st rc0 = false) :
    txContains (txRemove st rc) rc0 = false := by
  cases hval : txContains (txRemove st rc) rc0 with
  | false => rfl
  | true =>
    exfalso
    unfold txContains txRemove at hval
    rw [List.any_eq_true] at hval
    obtain ⟨p, hp, hpe⟩ := hval
    have hmem := (List.mem_filter.mp hp).1
    have hany : st.transactionStore.any (fun p => p.1 = rc0) = true :=
      List.any_eq_true.mpr ⟨p, hmem, hpe⟩
    unfold txContains at h
    rw [h] at hany
    exact Bool.noConfusion hany

theorem txContains_eq_of_txStore {st st₁ : EngineState} {rc0 : Nat}
    (h : st₁.transactionStore = st.transactionStore) :
    txContains st₁ rc0 = txContains st rc0 := by
  unfold txContains
  rw [h]

/-- The replication hook never touches the transaction store. -/
theorem applyReplication_txStore {c : Command} {r : EngineOutcome}
    {st' : EngineState} {v' : RespValue}
    (h : applyReplication c r = .ok st' v') :
    ∃ st₁ v₁, r = .ok st₁ v₁ ∧ st'.transactionStore = st₁.transactionStore := by
  cases r with
  | ok st₁ v₁ =>
    refine ⟨st₁, v₁, rfl, ?_⟩
    simp only [applyReplication] at h
    split at h
    · split at h
      · split at h
        · simp only [EngineOutcome.ok.injEq] at h
          obtain ⟨h1, h2⟩ := h
          subst h1
          rfl
        · exact EngineOutcome.noConfusion h
      · simp only [EngineOutcome.ok.injEq] at h
        obtain ⟨h1, h2⟩ := h
        subst h1
        rfl
    · simp only [EngineOutcome.ok.injEq] at h
      obtain ⟨h1, h2⟩ := h
      subst h1
      rfl
  | err st₁ m => simp [applyReplication] at h
  | panicked m => simp [applyReplication] at h
  | unmodeled w => simp [applyReplication] at h

/-- `apply_replication` is the identity on results of non-propagatable
commands. -/
theorem applyReplication_skip {c : Command} (hc : c.forReplication = false)
    (r : EngineOutcome) : applyReplication c r = r := by
  cases r <;> simp [applyReplication, hc]

/-- Commands other than `MULTI` and `EXEC` never put a connection into a
transaction. -/
theorem executeOnly_notx (fuel : Nat) (env : EngineEnv) (c : Command)
    (rc : Option Nat) (co : Nat) (st : EngineState) (rc0 : Nat)
    {st' : EngineState} {v : RespValue}
    (hm : c.isMulti = false) (he : c.isExec = false)
    (h : executeOnly fuel env c rc co st = .ok st' v)
    (htx : txContains st rc0 = false) : txContains st' rc0 = false := by
  cases fuel with
  | zero => simp [executeOnly] at h
  | succ fuel =>
    cases c
    case Multi => exact Bool.noConfusion hm
    case Exec => exact Bool.noConfusion he
    all_goals (
      simp only [executeOnly] at h
      obtain ⟨st₁, v₁, hr, hts⟩ := applyReplication_txStore h
      rw [txContains_eq_of_txStore hts]
      first
      | exact EngineOutcome.noConfusion hr
      | (obtain ⟨db', rfl⟩ := push_shape _ _ _ _ hr
         exact htx)
      | (obtain ⟨db', rfl⟩ := pop_shape _ _ _ hr
         exact htx)
      | (obtain ⟨db', rfl⟩ := popMulti_shape _ _ _ _ hr
         exact htx)
      | (obtain ⟨db', rfl⟩ := blockingPop_shape _ _ _ hr
         exact htx)
      | (obtain ⟨db', rfl⟩ := xrangeRun_shape _ _ _ _ _ hr
         exact htx)
      | (obtain ⟨db', rfl⟩ := xreadRun_shape _ _ _ _ hr
         exact htx)
      | (obtain ⟨db', rfl⟩ := getConfigRun_shape _ _ _ hr
         exact htx)
      | (obtain ⟨r, rfl, h1, h2⟩ := waitRun_shape _ hr
         exact htx)
      | (obtain ⟨r, rfl, h1, h2⟩ := replconfRun_shape _ _ _ _ hr
         exact htx)
      | (repeat' split at hr
         all_goals
           first
           | exact EngineOutcome.noConfusion hr
           | (simp only [EngineOutcome.ok.injEq] at hr
              obtain ⟨h1, h2⟩ := hr
              subst h1
              first
              | exact htx
              | exact txContains_txRemove_false htx)))

/-- The `EXEC` drain loop: a successful run replies one array slot per
queued command and, when the connection started outside a transaction
and no queued command is `MULTI`, leaves it outside. -/
theorem execList_ok_shape (fuel : Nat) : ∀ (env : EngineEnv) (rc co : Nat)
    (cs : List Command) (st : EngineState) (acc : List RespValue)
    (st' : EngineState) (v : RespValue),
    (∀ c ∈ cs, c.isMulti = false) → txContains st rc = false →
    execList fuel env (some rc) co cs st acc = .ok st' v →
    txContains st' rc = false ∧
      ∃ vs, v = .Array vs ∧ vs.length = acc.length + cs.length := by
  induction fuel with
  | zero =>
    intro env rc co cs st acc st' v _ _ h
    simp [execList] at h
  | succ fuel ih =>
    intro env rc co cs st acc st' v hnm htx h
    cases cs with
    | nil =>
      simp only [execList, EngineOutcome.ok.injEq] at h
      obtain ⟨h1, h2⟩ := h
      subst h1
      exact ⟨htx, acc.reverse, h2.symm, by simp⟩
    | cons c cs' =>
      simp only [execList] at h
      split at h
      · rename_i st₁ v₁ hexe
        have htx₁ : txContains st₁ rc = false := by
          by_cases hce : c.isExec = true
          · have hc : c = .Exec := by
              cases c <;> first | rfl | exact Bool.noConfusion hce
            subst hc
            cases fuel with
            | zero => simp [executeOnly] at hexe
            | succ g =>
              have hnone : txGet st rc = none := txGet_eq_none htx
              simp [executeOnly, hnone, applyReplication,
                Command.forReplication] at hexe
              obtain ⟨h1, h2⟩ := hexe
              subst h1
              exact htx
          · have hce' : c.isExec = false := by
              revert hce; cases c.isExec <;> simp
            exact executeOnly_notx fuel env c (some rc) co st rc
              (hnm c (by simp)) hce' hexe htx
        obtain ⟨htx', vs, hv, hlen⟩ := ih env rc co cs' st₁ (v₁ :: acc) st' v
          (fun d hd => hnm d (List.mem_cons_of_mem _ hd)) htx₁ h
        refine ⟨htx', vs, hv, ?_⟩
        simp only [List.length_cons] at hlen ⊢
        omega
      · rename_i hne
        exact absurd h (hne st' v)

/-- The `Command::Exec` arm on a queued buffer without nested `MULTI`:
one reply per queued command, transaction cleared. -/
theorem exec_ok_shape (fuel : Nat) (env : EngineEnv) (rc co : Nat)
    (cs : List Command) (st : EngineState) (st' : EngineState) (v : RespValue)
    (hq : txGet st rc = some cs) (hnm : ∀ c ∈ cs, c.isMulti = false)
    (h : executeOnly (fuel + 1) env .Exec (some rc) co st = .ok st' v) :
    txContains st' rc = false ∧ ∃ vs, v = .Array vs ∧ vs.length = cs.length := by
  simp only [executeOnly, hq] at h
  rw [applyReplication_skip (show Command.forReplication .Exec = false from rfl)] at h
  obtain ⟨htx', vs, hv, hlen⟩ := execList_ok_shape fuel env rc co cs
    (txRemove st rc) [] st' v hnm (txContains_txRemove_self st rc) h
  refine ⟨htx', vs, hv, ?_⟩
  simpa using hlen

/-- C7: transactions.  (a) While connection `rc` is inside a transaction
(its buffer is `q`), any command that is not `EXEC`, `DISCARD` or
`MULTI` is appended to the buffer and answered `+QUEUED`, and the buffer
then reads back as `q ++ [c]`.  (b) An `EXEC` over a queued buffer
without nested `MULTI` that ends in a reply replies an array with
exactly one slot per queued command, in queue order, and leaves the
connection outside any transaction.  (The shape hypothesis `.ok` is the
amendment's caveat: a queued command may instead abort the whole `EXEC`
with an engine-level error and no array reply at all — see the
counterexample.) -/
theorem C7_transaction_queue_and_exec :
    (∀ (fuel : Nat) (env : EngineEnv) (c : Command) (rc co : Nat)
        (st : EngineState) (q : List Command),
      txGet st rc = some q → c.isExec = false → c.isDiscard = false →
      c.isMulti = false →
      Engine.execute fuel env c rc co st =
        .ok (txInsert st rc (q ++ [c])) (.SimpleString "QUEUED") ∧
      txGet (txInsert st rc (q ++ [c])) rc = some (q ++ [c])) ∧
    (∀ (fuel : Nat) (env : EngineEnv) (rc co : Nat) (cs : List Command)
        (st st' : EngineState) (v : RespValue),
      txGet st rc = some cs → (∀ c ∈ cs, c.isMulti = false) →
      executeOnly (fuel + 1) env .Exec (some rc) co st = .ok st' v →
      txContains st' rc = false ∧ ∃ vs, v = .Array vs ∧ vs.length = cs.length) := by
  constructor
  · intro fuel env c rc co st q hq hex hdis hmul
    have hcont : txContains st rc = true := txContains_of_txGet hq
    have hcond : ¬c.isExec = true ∧ ¬c.isDiscard = true ∧ txContains st rc = true :=
      ⟨by simp [hex], by simp [hdis], hcont⟩
    constructor
    · unfold Engine.execute
      rw [if_pos hcond]
      rw [if_neg (show ¬c.isMulti = true by simp [hmul])]
      rw [hq]
    · exact txGet_txInsert st rc (q ++ [c])
  · intro fuel env rc co cs st st' v hq hnm h
    exact exec_ok_shape fuel env rc co cs st st' v hq hnm h

/-- C7, counterexample to the claim as frozen: connection 1 queued one
`BLPOP k` while `k` holds a string; its `EXEC` does not reply an array
of one reply — the `WRONGTYPE` surfaces through `?` as an engine-level
error and aborts the whole `EXEC` with no array reply. -/
theorem C7_exec_queued_blpop_errors :
    executeOnly 3 env0 .Exec (some 1) 0 blpopTxState =
      .err blpopErrState wrongTypeError :=
  rfl

/-- Witness for C7: queueing `GET a` onto connection 1's buffer, and an
`EXEC` over the queued `SET a 1` replying a one-slot array and closing
the transaction. -/
theorem C7_transaction_queue_and_exec_witness :
    (Engine.execute 1 env0 (.Get "a") 1 0 txSetState =
        .ok (txInsert txSetState 1 ([.Set "a" "1" none] ++ [.Get "a"]))
          (.SimpleString "QUEUED") ∧
      txGet (txInsert txSetState 1 ([.Set "a" "1" none] ++ [.Get "a"])) 1 =
        some ([.Set "a" "1" none] ++ [.Get "a"])) ∧
    (txContains setOutState 1 = false ∧
      ∃ vs, (RespValue.Array [.SimpleString "OK"]) = .Array vs ∧
        vs.length = [Command.Set "a" "1" none].length) :=
  ⟨C7_transaction_queue_and_exec.1 1 env0 (.Get "a") 1 0 txSetState
      [.Set "a" "1" none] rfl rfl rfl rfl,
    C7_transaction_queue_and_exec.2 2 env0 1 0 [.Set "a" "1" none] txSetState
      setOutState (.Array [.SimpleString "OK"]) rfl (by simp [Command.isMulti]) rfl⟩

end PeterRedis
